import Mathlib

/-!
Verification of the Patmos cycle-accurate simulator core against its
natural-language specification.  The definitions below are a shallow
embedding of the C++ sources (src/src/memory.cc, src/src/simulation-core.cc,
src/include/instructions.h, src/include/stack-cache.h,
src/include/method-cache.h, src/include/exception.h).  Machine words are
modelled as `Nat` (bit patterns) or `Int` (signed values) with explicit
reduction modulo 2^32 where overflow matters; C++ exceptions become
`Except`; statistics counters that do not influence behaviour are kept
only where a claim mentions them.
-/

namespace Patmos

/-- Kinds of simulation exceptions, from `exception.h`
(`simulation_exception_t::kind_t`), each carrying its numeric detail. -/
inductive Exc where
  | halt (exitCode : Int)
  | illegal (iw : Nat)
  | unmapped (address : Nat)
  | illegalAccess (address : Nat)
  | stackExceeded
  | codeExceeded (address : Nat)
  | illegalPC (address : Nat)
  | unaligned (address : Nat)
deriving DecidableEq, Repr

/-- Pipeline stage indices from `simulation-core.h` (`Pipeline_t`). -/
def SIF : Nat := 0

/-- Decode stage index. -/
def SDR : Nat := 1

/-- Execute stage index. -/
def SEX : Nat := 2

/-- Memory/writeback stage index. -/
def SMW : Nat := 3

/-- Number of pipeline stages (`NUM_STAGES`). -/
def NUM_STAGES : Nat := 4

/-- Number of slots per bundle (`NUM_SLOTS`). -/
def NUM_SLOTS : Nat := 2

/-- General-purpose register holding the exit code
(`GPR_EXIT_CODE_INDEX = r1`, simulation-core.h). -/
def GPR_EXIT_CODE_INDEX : Nat := 1

/-! ### Ideal memory (`ideal_memory_t`, memory.cc)

The MMU and the uninitialized-read check (`Init_vector`) are optional
collaborators that are disabled by default (`Mmu == NULL`,
`Init_vector == NULL`); the embedding models the default configuration.
`Randomize` is likewise false, so lazy initialization writes zeros. -/

/-- State of `ideal_memory_t`: a byte store of `memorySize` bytes and the
watermark `Initialized_offset` up to which bytes have been lazily
initialized. -/
structure IdealMemory where
  memorySize : Nat
  content : Nat → Nat
  initializedOffset : Nat

/-- Lazy zero-initialization loop of `check_initialize_content`: initialize
the bytes from the watermark up to `min (address + max 1024 size)
memorySize`. -/
def lazyInit (m : IdealMemory) (address size : Nat) : IdealMemory :=
  let initSize := min (address + max 1024 size) m.memorySize
  { m with
    content := fun a =>
      if m.initializedOffset ≤ a ∧ a < initSize then 0 else m.content a,
    initializedOffset := max m.initializedOffset initSize }

/-- Embedding of `ideal_memory_t::check_initialize_content`: raise `UNMAPPED`
when the access exceeds the memory size, otherwise lazily zero-initialize. -/
def checkInitializeContent (m : IdealMemory) (address size : Nat) :
    Except Exc IdealMemory :=
  if address > m.memorySize ∨ size > m.memorySize - address then
    .error (.unmapped address)
  else
    .ok (lazyInit m address size)

/-- Copy loop of `ideal_memory_t::read`: the `size` bytes starting at
`address`. -/
def readBytes (m : IdealMemory) (address size : Nat) : List Nat :=
  (List.range size).map fun i => m.content (address + i)

/-- Copy loop of `ideal_memory_t::write`: store the given bytes starting at
`address`. -/
def storeBytes (m : IdealMemory) (address : Nat) (value : List Nat) :
    IdealMemory :=
  { m with
    content := fun a =>
      if address ≤ a ∧ a < address + value.length then
        value.getD (a - address) 0
      else m.content a }

/-- Embedding of `ideal_memory_t::read`: bounds-check and lazily initialize,
then return the `size` bytes starting at `address`. -/
def idealRead (m : IdealMemory) (address size : Nat) :
    Except Exc (IdealMemory × List Nat) :=
  (checkInitializeContent m address size).map fun m2 =>
    (m2, readBytes m2 address size)

/-- Embedding of `ideal_memory_t::write`: bounds-check and lazily initialize,
then store the given bytes starting at `address`. -/
def idealWrite (m : IdealMemory) (address : Nat) (value : List Nat) :
    Except Exc IdealMemory :=
  (checkInitializeContent m address value.length).map
    fun m2 => storeBytes m2 address value

/-- Embedding of `ideal_memory_t::read_peek`: identical to `read` except the
uninitialized-read policy errors are suppressed (the `UNMAPPED` bounds check
is performed regardless, see the comment in `check_initialize_content`). -/
def idealReadPeek (m : IdealMemory) (address size : Nat) :
    Except Exc (IdealMemory × List Nat) :=
  idealRead m address size

/-- Embedding of `ideal_memory_t::write_peek`. -/
def idealWritePeek (m : IdealMemory) (address : Nat) (value : List Nat) :
    Except Exc IdealMemory :=
  idealWrite m address value

/-! ### Fixed-delay memory (`fixed_delay_memory_t`, memory.cc) -/

/-- A queued memory request (`request_info_t`); note that it carries no data
buffer, only the request geometry and the remaining tick count. -/
structure RequestInfo where
  address : Nat
  size : Nat
  isLoad : Bool
  isPosted : Bool
  ticksRemaining : Nat
deriving DecidableEq, Repr

/-- State of `fixed_delay_memory_t`: the underlying ideal store, the request
queue, and the timing/posting configuration.  The statistics counters of the
source (`Num_reads`, histogram, ...) do not influence behaviour and are
omitted. -/
structure FixedDelayMemory where
  ideal : IdealMemory
  requests : List RequestInfo
  numBytesPerBurst : Nat
  numTicksPerBurst : Nat
  numReadDelayTicks : Nat
  numPostedWrites : Nat

/-- Embedding of `fixed_delay_memory_t::get_aligned_size`: burst-align the
request; returns (aligned address, aligned size). -/
def getAlignedSize (b : Nat) (address size : Nat) : Nat × Nat :=
  let start := (address / b) * b
  let stop := (((address + size - 1) / b) + 1) * b
  (start, stop - start)

/-- Embedding of `fixed_delay_memory_t::get_transfer_ticks`:
`num_bursts * burst_ticks`, plus the read delay for loads and non-posted
writes. -/
def getTransferTicks (m : FixedDelayMemory) (alignedSize : Nat)
    (isLoad isPosted : Bool) : Nat :=
  let numBlocks := ((alignedSize - 1) / m.numBytesPerBurst) + 1
  let numTicks := m.numTicksPerBurst * numBlocks
  if isLoad ∨ ¬isPosted then numTicks + m.numReadDelayTicks else numTicks

/-- Match test used by `find_or_create_request` for open requests. -/
def requestMatches (r : RequestInfo) (address size : Nat) (isLoad : Bool) :
    Bool :=
  r.address == address && r.size == size && r.isLoad == isLoad

/-- Embedding of `fixed_delay_memory_t::find_or_create_request` (signature
`(s, address, size, is_load, is_fetch, is_posted)`, memory.cc:209):
bounds-check and lazily initialize the ideal store, return a matching open
request when one exists, otherwise append a new request with its transfer
tick count.  `isFetch` only selects the MMU translation mode and the MMU is
the disabled default, so it is inert here.  Both call sites in memory.cc
pass five arguments, leaving `is_posted` at its default from the
declaration in memory.h (not among the sources); that default must be
`false` — a `true` default would make `tick` erase every load request on
reaching zero ticks, for the caller to re-create it forever. -/
def findOrCreateRequest (m : FixedDelayMemory) (address size : Nat)
    (isLoad isFetch isPosted : Bool) :
    Except Exc (RequestInfo × FixedDelayMemory) :=
  (checkInitializeContent m.ideal address size).map fun mi =>
    match m.requests.find? (fun r => requestMatches r address size isLoad) with
    | some r => (r, { m with ideal := mi })
    | none =>
      let aligned := getAlignedSize m.numBytesPerBurst address size
      let numTicks := getTransferTicks m aligned.2 isLoad isPosted
      let req : RequestInfo :=
        { address := address, size := size, isLoad := isLoad,
          isPosted := isPosted, ticksRemaining := numTicks }
      (req, { m with ideal := mi, requests := m.requests ++ [req] })

/-- Embedding of `fixed_delay_memory_t::read`
(`find_or_create_request(s, address, size, true, is_fetch)`, `is_posted`
defaulted false): when the matching request has no ticks remaining, perform
the data transfer against the underlying ideal store and retire the queue
head; otherwise report not ready. -/
def fdRead (m : FixedDelayMemory) (address size : Nat) (isFetch : Bool) :
    Except Exc (Bool × FixedDelayMemory × List Nat) :=
  match findOrCreateRequest m address size true isFetch false with
  | .error e => .error e
  | .ok (req, m1) =>
    if req.ticksRemaining = 0 then
      let m2 := { m1 with requests := m1.requests.drop 1 }
      match idealRead m2.ideal address size with
      | .error e => .error e
      | .ok (mi, bytes) => .ok (true, { m2 with ideal := mi }, bytes)
    else
      .ok (false, m1, [])

/-- Embedding of `fixed_delay_memory_t::write`: requests are queued
immediately; when the matching request has no ticks remaining the data is
written through to the ideal store and the head retired; a posted write
otherwise reports ready as soon as the queue size does not exceed the
posted-write depth.  Note the call site (memory.cc:307) passes the local
`posted` as `find_or_create_request`'s fifth parameter — the inert
`is_fetch` — so the created request's `is_posted` is the defaulted false
and its tick count includes the read delay. -/
def fdWrite (m : FixedDelayMemory) (address : Nat) (value : List Nat) :
    Except Exc (Bool × FixedDelayMemory) :=
  match findOrCreateRequest m address value.length false
      (decide (0 < m.numPostedWrites)) false with
  | .error e => .error e
  | .ok (req, m1) =>
    if req.ticksRemaining = 0 then
      let m2 := { m1 with requests := m1.requests.drop 1 }
      match idealWrite m2.ideal address value with
      | .error e => .error e
      | .ok mi => .ok (true, { m2 with ideal := mi })
    else if 0 < m.numPostedWrites then
      .ok (decide (m1.requests.length ≤ m.numPostedWrites), m1)
    else
      .ok (false, m1)

/-- Embedding of `fixed_delay_memory_t::tick`: decrement the tick count of
the queue head while it is nonzero; the branch erasing a posted request on
reaching zero is in the source but unreachable, since no request created by
`read`/`write` carries `is_posted = true`. -/
def fdTick (m : FixedDelayMemory) : FixedDelayMemory :=
  match m.requests with
  | [] => m
  | r :: rest =>
    if r.ticksRemaining ≠ 0 then
      let r2 := { r with ticksRemaining := r.ticksRemaining - 1 }
      if r2.ticksRemaining = 0 ∧ r2.isPosted then { m with requests := rest }
      else { m with requests := r2 :: rest }
    else m

/-! ### Claim C10: ideal-memory bounds check -/

/-- Claim C10: every `read`, `write`, `read_peek` or `write_peek` on the
ideal memory whose address is greater than the memory size or whose size
exceeds the memory size minus the address raises the `UNMAPPED` exception
carrying the accessed address, before any byte of memory content is read or
modified (the `Except.error` result carries no state, so the store is left
untouched). -/
theorem ideal_memory_bounds_check (m : IdealMemory) (address size : Nat)
    (value : List Nat) (hsz : value.length = size)
    (h : address > m.memorySize ∨ size > m.memorySize - address) :
    idealRead m address size = .error (.unmapped address) ∧
    idealWrite m address value = .error (.unmapped address) ∧
    idealReadPeek m address size = .error (.unmapped address) ∧
    idealWritePeek m address value = .error (.unmapped address) := by
  have hchk : checkInitializeContent m address size = .error (.unmapped address) := by
    unfold checkInitializeContent
    rw [if_pos h]
  have hchkw : checkInitializeContent m address value.length
      = .error (.unmapped address) := by rw [hsz]; exact hchk
  refine ⟨?_, ?_, ?_, ?_⟩ <;>
    simp [idealRead, idealWrite, idealReadPeek, idealWritePeek, hchk, hchkw,
          Except.map]

/-- Witness for C10 at a concrete out-of-bounds access: memory of 8 bytes,
read/write of 4 bytes at address 6. -/
theorem ideal_memory_bounds_check_witness :
    let m : IdealMemory := ⟨8, fun _ => 0, 0⟩
    idealRead m 6 4 = .error (.unmapped 6) ∧
    idealWrite m 6 [1, 2, 3, 4] = .error (.unmapped 6) ∧
    idealReadPeek m 6 4 = .error (.unmapped 6) ∧
    idealWritePeek m 6 [1, 2, 3, 4] = .error (.unmapped 6) :=
  ideal_memory_bounds_check ⟨8, fun _ => 0, 0⟩ 6 4 [1, 2, 3, 4] rfl
    (by right; decide)

/-! ### Claim C3: fixed-delay request retirement and write posting -/

/-- Destination state of a `fdWrite` call (identity on error). -/
def fdWriteDest (m : FixedDelayMemory) (address : Nat) (value : List Nat) :
    FixedDelayMemory :=
  match fdWrite m address value with
  | .ok (_, s) => s
  | .error _ => m

/-- Ready flag of a `fdWrite` call (false on error). -/
def fdWriteReady (m : FixedDelayMemory) (address : Nat) (value : List Nat) :
    Bool :=
  match fdWrite m address value with
  | .ok (b, _) => b
  | .error _ => false

/-- Success flag of a `fdWrite` call. -/
def fdWriteOk (m : FixedDelayMemory) (address : Nat) (value : List Nat) :
    Bool :=
  match fdWrite m address value with
  | .ok _ => true
  | .error _ => false

/-- Destination state of a `fdRead` call (identity on error). -/
def fdReadDest (m : FixedDelayMemory) (address size : Nat)
    (isFetch : Bool) : FixedDelayMemory :=
  match fdRead m address size isFetch with
  | .ok (_, s, _) => s
  | .error _ => m

/-- Ready flag and returned bytes of a `fdRead` call. -/
def fdReadOut (m : FixedDelayMemory) (address size : Nat) (isFetch : Bool) :
    Bool × List Nat :=
  match fdRead m address size isFetch with
  | .ok (b, _, bytes) => (b, bytes)
  | .error _ => (false, [])

/-- Concrete fixed-delay memory used for the C3 scenario: 1 KiB ideal store,
8-byte bursts of 2 ticks, no read delay, one posted write allowed. -/
def memC3 : FixedDelayMemory :=
  { ideal := ⟨1024, fun _ => 0, 0⟩, requests := [],
    numBytesPerBurst := 8, numTicksPerBurst := 2,
    numReadDelayTicks := 0, numPostedWrites := 1 }

/-- Counterexample to claim C3: the posted write of bytes 42 at address 0
is accepted immediately (ready), but the queued request is never flagged
posted, so when its countdown elapses the request is still at the head of
the queue with zero remaining ticks — the state is a fixpoint of `tick`,
the request is never retired, and the ideal store never receives the data
(byte 0 still reads 0, not 42): reaching zero ticks triggers neither the
data transfer nor the retirement for this posted write. -/
theorem fixed_delay_posted_write_counterexample :
    fdWriteReady memC3 0 [42, 42, 42, 42] = true ∧
    (fdTick (fdTick (fdWriteDest memC3 0 [42, 42, 42, 42]))).requests
      = [⟨0, 4, false, false, 0⟩] ∧
    fdTick (fdTick (fdTick (fdWriteDest memC3 0 [42, 42, 42, 42])))
      = fdTick (fdTick (fdWriteDest memC3 0 [42, 42, 42, 42])) ∧
    (fdTick (fdTick (fdWriteDest memC3 0 [42, 42, 42, 42]))).ideal.content 0
      = 0 ∧
    (0 : Nat) ≠ 42 := by
  refine ⟨rfl, rfl, rfl, rfl, by decide⟩

/-- Claim C3 (amended): requests are retired from the queue only by
`read`/`write` calls, which perform the data transfer against the
underlying ideal store at the moment the matching request has zero
remaining ticks, before erasing the head; `tick` only counts the head
down — it never retires a request and never touches the ideal store,
because no request created by `read`/`write` is flagged posted (`write()`
passes its posted flag into the inert `is_fetch` parameter of
`find_or_create_request`, so `is_posted` is the defaulted false), hence a
posted write accepted immediately is never retired and its data is never
transferred unless a later identical write call picks the stale request
up.  A write call while posting is enabled returns ready immediately as
long as the queue size (with the new request counted) does not exceed the
configured posted-write depth, and stalls while it exceeds it; a freshly
created write request carries `is_posted = false` and a tick count that
includes the read delay. -/
theorem fixed_delay_retirement_amended
    (m : FixedDelayMemory) (r : RequestInfo) (rest : List RequestInfo)
    (address : Nat) (value : List Nat)
    (hreq : m.requests = r :: rest) :
    (r.isPosted = false →
      (fdTick m).ideal = m.ideal ∧
      (fdTick m).requests
        = (if r.ticksRemaining = 0 then r :: rest
           else { r with ticksRemaining := r.ticksRemaining - 1 }
                :: rest)) ∧
    (requestMatches r address value.length false = true →
      r.ticksRemaining = 0 →
      ¬(address > m.ideal.memorySize ∨
        value.length > m.ideal.memorySize - address) →
      fdWriteOk m address value = true ∧
      fdWriteReady m address value = true ∧
      (fdWriteDest m address value).requests = rest ∧
      ∀ i < value.length,
        (fdWriteDest m address value).ideal.content (address + i)
          = value.getD i 0) ∧
    (0 < m.numPostedWrites →
      requestMatches r address value.length false = true →
      r.ticksRemaining ≠ 0 →
      ¬(address > m.ideal.memorySize ∨
        value.length > m.ideal.memorySize - address) →
      fdWriteOk m address value = true ∧
      fdWriteReady m address value
        = decide (m.requests.length ≤ m.numPostedWrites) ∧
      (fdWriteDest m address value).requests = m.requests) ∧
    (∀ sz isFetch, requestMatches r address sz true = true →
      r.ticksRemaining = 0 →
      ¬(address > m.ideal.memorySize ∨ sz > m.ideal.memorySize - address) →
      (fdReadOut m address sz isFetch).1 = true ∧
      (fdReadDest m address sz isFetch).requests = rest ∧
      (fdReadOut m address sz isFetch).2
        = readBytes (lazyInit (lazyInit m.ideal address sz) address sz)
            address sz) ∧
    (m.requests.find? (fun q => requestMatches q address value.length false)
        = none →
      0 < m.numPostedWrites →
      0 < m.numTicksPerBurst →
      ¬(address > m.ideal.memorySize ∨
        value.length > m.ideal.memorySize - address) →
      fdWriteOk m address value = true ∧
      (fdWriteReady m address value = true ↔
        m.requests.length + 1 ≤ m.numPostedWrites) ∧
      (fdWriteDest m address value).requests
        = m.requests ++
          [⟨address, value.length, false, false,
            getTransferTicks m
              (getAlignedSize m.numBytesPerBurst address value.length).2
              false false⟩]) := by
  have hfind : ∀ sz isLoad, requestMatches r address sz isLoad = true →
      m.requests.find?
        (fun q => requestMatches q address sz isLoad) = some r := by
    intro sz isLoad hmatch
    rw [hreq]
    exact List.find?_cons_of_pos _ hmatch
  refine ⟨?_, ?_, ?_, ?_, ?_⟩
  · intro hp
    constructor
    · simp only [fdTick, hreq]
      split_ifs <;> rfl
    · simp only [fdTick, hreq]
      by_cases ht : r.ticksRemaining = 0
      · rw [if_neg (fun hcon => hcon ht), if_pos ht]
        exact hreq
      · rw [if_pos ht, if_neg (by simp [hp]), if_neg ht]
  · intro hmatch ht hb
    have hchk : checkInitializeContent m.ideal address value.length
        = .ok (lazyInit m.ideal address value.length) := by
      unfold checkInitializeContent
      rw [if_neg hb]
    have hfoc : findOrCreateRequest m address value.length false
        (decide (0 < m.numPostedWrites)) false
        = .ok (r, { m with ideal := lazyInit m.ideal address value.length }) := by
      unfold findOrCreateRequest
      rw [hchk]
      simp only [Except.map]
      rw [hfind _ _ hmatch]
    have hb2 : ¬(address > (lazyInit m.ideal address value.length).memorySize ∨
        value.length >
          (lazyInit m.ideal address value.length).memorySize - address) := hb
    have hchk2 : checkInitializeContent (lazyInit m.ideal address value.length)
        address value.length
        = .ok (lazyInit (lazyInit m.ideal address value.length) address
                value.length) := by
      unfold checkInitializeContent
      rw [if_neg hb2]
    have hw : fdWrite m address value
        = .ok (true,
            { m with
              ideal := storeBytes
                (lazyInit (lazyInit m.ideal address value.length) address
                  value.length) address value,
              requests := rest }) := by
      unfold fdWrite
      rw [hfoc]
      simp only [ht, if_pos, hreq, List.drop_succ_cons, List.drop_zero,
                 idealWrite, hchk2, Except.map]
    refine ⟨?_, ?_, ?_, ?_⟩
    · simp [fdWriteOk, hw]
    · simp [fdWriteReady, hw]
    · simp [fdWriteDest, hw]
    · intro i hi
      simp only [fdWriteDest, hw, storeBytes]
      have h1 : address ≤ address + i := Nat.le_add_right _ _
      have h2 : address + i < address + value.length := by omega
      simp only [h1, h2, and_self, if_pos, Nat.add_sub_cancel_left]
  · intro hN hmatch ht hb
    have hchk : checkInitializeContent m.ideal address value.length
        = .ok (lazyInit m.ideal address value.length) := by
      unfold checkInitializeContent
      rw [if_neg hb]
    have hfoc : findOrCreateRequest m address value.length false
        (decide (0 < m.numPostedWrites)) false
        = .ok (r, { m with ideal := lazyInit m.ideal address value.length }) := by
      unfold findOrCreateRequest
      rw [hchk]
      simp only [Except.map]
      rw [hfind _ _ hmatch]
    have hw : fdWrite m address value
        = .ok (decide (m.requests.length ≤ m.numPostedWrites),
               { m with ideal := lazyInit m.ideal address value.length }) := by
      unfold fdWrite
      rw [hfoc]
      simp [ht, hN]
    refine ⟨by simp [fdWriteOk, hw], by simp [fdWriteReady, hw],
            by simp [fdWriteDest, hw]⟩
  · intro sz isFetch hmatch ht hb
    have hchk : checkInitializeContent m.ideal address sz
        = .ok (lazyInit m.ideal address sz) := by
      unfold checkInitializeContent
      rw [if_neg hb]
    have hfoc : findOrCreateRequest m address sz true isFetch false
        = .ok (r, { m with ideal := lazyInit m.ideal address sz }) := by
      unfold findOrCreateRequest
      rw [hchk]
      simp only [Except.map]
      rw [hfind _ _ hmatch]
    have hb2 : ¬(address > (lazyInit m.ideal address sz).memorySize ∨
        sz > (lazyInit m.ideal address sz).memorySize - address) := hb
    have hchk2 : checkInitializeContent (lazyInit m.ideal address sz)
        address sz
        = .ok (lazyInit (lazyInit m.ideal address sz) address sz) := by
      unfold checkInitializeContent
      rw [if_neg hb2]
    have hr : fdRead m address sz isFetch
        = .ok (true,
            { m with
              ideal := lazyInit (lazyInit m.ideal address sz) address sz,
              requests := rest },
            readBytes (lazyInit (lazyInit m.ideal address sz) address sz)
              address sz) := by
      unfold fdRead
      rw [hfoc]
      simp only [ht, if_pos, hreq, List.drop_succ_cons, List.drop_zero,
                 idealRead, hchk2, Except.map]
    exact ⟨by simp [fdReadOut, hr], by simp [fdReadDest, hr],
           by simp [fdReadOut, hr]⟩
  · intro hnone hN htpb hb
    have hchk : checkInitializeContent m.ideal address value.length
        = .ok (lazyInit m.ideal address value.length) := by
      unfold checkInitializeContent
      rw [if_neg hb]
    have hfoc : findOrCreateRequest m address value.length false
        (decide (0 < m.numPostedWrites)) false
        = .ok ((⟨address, value.length, false, false,
                getTransferTicks m
                  (getAlignedSize m.numBytesPerBurst address value.length).2
                  false false⟩ : RequestInfo),
               { m with
                 ideal := lazyInit m.ideal address value.length,
                 requests := m.requests ++
                   [⟨address, value.length, false, false,
                     getTransferTicks m
                       (getAlignedSize m.numBytesPerBurst address
                         value.length).2 false false⟩] }) := by
      unfold findOrCreateRequest
      rw [hchk]
      simp only [Except.map]
      rw [hnone]
    have hT : getTransferTicks m
        (getAlignedSize m.numBytesPerBurst address value.length).2
        false false ≠ 0 := by
      have hpos : 0 < m.numTicksPerBurst *
          (((getAlignedSize m.numBytesPerBurst address value.length).2 - 1)
            / m.numBytesPerBurst + 1) :=
        Nat.mul_pos htpb (Nat.succ_pos _)
      simp only [getTransferTicks]
      rw [if_pos (by simp)]
      exact Nat.pos_iff_ne_zero.mp
        (Nat.lt_of_lt_of_le hpos (Nat.le_add_right _ _))
    have hw : fdWrite m address value
        = .ok (decide ((m.requests ++
              [(⟨address, value.length, false, false,
                getTransferTicks m
                  (getAlignedSize m.numBytesPerBurst address value.length).2
                  false false⟩ : RequestInfo)]).length ≤ m.numPostedWrites),
            { m with
              ideal := lazyInit m.ideal address value.length,
              requests := m.requests ++
                [⟨address, value.length, false, false,
                  getTransferTicks m
                    (getAlignedSize m.numBytesPerBurst address
                      value.length).2 false false⟩] }) := by
      unfold fdWrite
      rw [hfoc]
      simp [hT, hN]
    refine ⟨by simp [fdWriteOk, hw], ?_, by simp [fdWriteDest, hw]⟩
    rw [show fdWriteReady m address value
        = decide ((m.requests ++
            [(⟨address, value.length, false, false,
              getTransferTicks m
                (getAlignedSize m.numBytesPerBurst address value.length).2
                false false⟩ : RequestInfo)]).length ≤ m.numPostedWrites)
        from by simp [fdWriteReady, hw]]
    simp [List.length_append]

/-- Witness for the amended C3 at a concrete state: queue holding a single
matching (unposted, as all are) write request. -/
theorem fixed_delay_retirement_amended_witness :
    let r : RequestInfo := ⟨0, 4, false, false, 1⟩
    let m : FixedDelayMemory :=
      { ideal := ⟨1024, fun _ => 0, 0⟩, requests := [r],
        numBytesPerBurst := 8, numTicksPerBurst := 2,
        numReadDelayTicks := 0, numPostedWrites := 1 }
    (r.isPosted = false →
      (fdTick m).ideal = m.ideal ∧
      (fdTick m).requests
        = (if r.ticksRemaining = 0 then r :: []
           else { r with ticksRemaining := r.ticksRemaining - 1 }
                :: [])) ∧
    (requestMatches r 0 (List.length [42, 42, 42, 42]) false = true →
      r.ticksRemaining = 0 →
      ¬((0 : Nat) > m.ideal.memorySize ∨
        List.length [42, 42, 42, 42] > m.ideal.memorySize - 0) →
      fdWriteOk m 0 [42, 42, 42, 42] = true ∧
      fdWriteReady m 0 [42, 42, 42, 42] = true ∧
      (fdWriteDest m 0 [42, 42, 42, 42]).requests = [] ∧
      ∀ i < List.length [42, 42, 42, 42],
        (fdWriteDest m 0 [42, 42, 42, 42]).ideal.content (0 + i)
          = List.getD [42, 42, 42, 42] i 0) ∧
    (0 < m.numPostedWrites →
      requestMatches r 0 (List.length [42, 42, 42, 42]) false = true →
      r.ticksRemaining ≠ 0 →
      ¬((0 : Nat) > m.ideal.memorySize ∨
        List.length [42, 42, 42, 42] > m.ideal.memorySize - 0) →
      fdWriteOk m 0 [42, 42, 42, 42] = true ∧
      fdWriteReady m 0 [42, 42, 42, 42]
        = decide (m.requests.length ≤ m.numPostedWrites) ∧
      (fdWriteDest m 0 [42, 42, 42, 42]).requests = m.requests) ∧
    (∀ sz isFetch, requestMatches r 0 sz true = true →
      r.ticksRemaining = 0 →
      ¬((0 : Nat) > m.ideal.memorySize ∨ sz > m.ideal.memorySize - 0) →
      (fdReadOut m 0 sz isFetch).1 = true ∧
      (fdReadDest m 0 sz isFetch).requests = [] ∧
      (fdReadOut m 0 sz isFetch).2
        = readBytes (lazyInit (lazyInit m.ideal 0 sz) 0 sz) 0 sz) ∧
    (m.requests.find?
        (fun q => requestMatches q 0 (List.length [42, 42, 42, 42]) false)
        = none →
      0 < m.numPostedWrites →
      0 < m.numTicksPerBurst →
      ¬((0 : Nat) > m.ideal.memorySize ∨
        List.length [42, 42, 42, 42] > m.ideal.memorySize - 0) →
      fdWriteOk m 0 [42, 42, 42, 42] = true ∧
      (fdWriteReady m 0 [42, 42, 42, 42] = true ↔
        m.requests.length + 1 ≤ m.numPostedWrites) ∧
      (fdWriteDest m 0 [42, 42, 42, 42]).requests
        = m.requests ++
          [⟨0, List.length [42, 42, 42, 42], false, false,
            getTransferTicks m
              (getAlignedSize m.numBytesPerBurst 0
                (List.length [42, 42, 42, 42])).2
              false false⟩]) :=
  fixed_delay_retirement_amended _ _ [] 0 [42, 42, 42, 42] rfl

/-! ### Claim C1: stall resolution and pipeline shift (`simulator_t::run`)

The instruction records flowing through the pipeline are opaque for this
claim; only the opcode handle (`I`, absent for a bubble) and the EX bypass
slot (`GPR_EX_Rd`, reset when stalling above EX) are modelled. -/

/-- Minimal view of `instruction_data_t` needed by the end-of-cycle shift:
the opcode handle and the EX-stage bypass register. -/
structure InstrData where
  I : Option Nat := none
  GPR_EX_Rd : Option (Nat × Int) := none
deriving DecidableEq, Repr

/-- A bubble: a default-constructed `instruction_data_t` (absent opcode). -/
def bubble : InstrData := {}

/-- Embedding of `pipeline_stall` accumulation over one cycle: `Stall` is
reset to `SIF` at the end of the previous cycle and each raise performs
`Stall = max Stall pst`. -/
def finalStall (raises : List Nat) : Nat := raises.foldl max SIF

/-- Embedding of the shift loop of `simulator_t::run`
(`for i = SEX downto Stall: Pipeline[i+1][j] = Pipeline[i][j]`): stages
`stall+1 .. SMW` receive the record of the stage below. -/
def pipelineMove (P : Nat → Nat → InstrData) (stall : Nat) :
    Nat → Nat → InstrData :=
  fun i j => if stall + 1 ≤ i ∧ i ≤ SMW then P (i - 1) j else P i j

/-- Embedding of the bubble insertion of `simulator_t::run`: a bubble at
stage `stall+1` in both slots, only when `Stall > SIF` and
`Stall ≠ NUM_STAGES - 1`. -/
def insertBubbles (P : Nat → Nat → InstrData) (stall : Nat) :
    Nat → Nat → InstrData :=
  fun i j =>
    if SIF < stall ∧ stall ≠ NUM_STAGES - 1 ∧ i = stall + 1 then bubble
    else P i j

/-- Embedding of the bypass reset of `simulator_t::run`: when `Stall > SEX`
the `GPR_EX_Rd` bypass of both EX slots is reset. -/
def resetBypasses (P : Nat → Nat → InstrData) (stall : Nat) :
    Nat → Nat → InstrData :=
  fun i j =>
    if SEX < stall ∧ i = SEX then { P i j with GPR_EX_Rd := none }
    else P i j

/-- End-of-cycle pipeline update of `simulator_t::run`: shift, then bubble
insertion, then bypass reset. -/
def cycleEndShift (P : Nat → Nat → InstrData) (stall : Nat) :
    Nat → Nat → InstrData :=
  resetBypasses (insertBubbles (pipelineMove P stall) stall) stall

theorem le_foldl_max_init (l : List Nat) (a : Nat) : a ≤ l.foldl max a := by
  induction l generalizing a with
  | nil => simp
  | cons b t ih => exact le_trans (le_max_left a b) (ih (max a b))

theorem mem_le_foldl_max (l : List Nat) (a x : Nat) (hx : x ∈ l) :
    x ≤ l.foldl max a := by
  induction l generalizing a with
  | nil => cases hx
  | cons b t ih =>
    rcases List.mem_cons.mp hx with h | h
    · subst h
      exact le_trans (le_max_right a x) (le_foldl_max_init t _)
    · exact ih _ h

theorem foldl_max_mem (l : List Nat) (a : Nat) :
    l.foldl max a ∈ l ∨ l.foldl max a = a := by
  induction l generalizing a with
  | nil => right; rfl
  | cons b t ih =>
    rcases ih (max a b) with h | h
    · left
      exact List.mem_cons_of_mem _ h
    · rcases max_choice a b with hm | hm
      · right
        rw [List.foldl_cons, h, hm]
      · left
        rw [List.mem_cons]
        left
        rw [List.foldl_cons, h, hm]

theorem cycleEndShift_stay (P : Nat → Nat → InstrData) (s i j : Nat)
    (h3 : s < 3) (hi : i ≤ s) : cycleEndShift P s i j = P i j := by
  simp only [cycleEndShift, resetBypasses, insertBubbles, pipelineMove,
             SIF, SEX, SMW, NUM_STAGES]
  split_ifs <;>
    first | rfl | omega | (simp only [and_true, ne_eq] at * ; omega)

theorem cycleEndShift_bubble (P : Nat → Nat → InstrData) (s j : Nat)
    (h0 : 0 < s) (h3 : s < 3) : cycleEndShift P s (s + 1) j = bubble := by
  simp only [cycleEndShift, resetBypasses, insertBubbles, pipelineMove,
             SIF, SEX, SMW, NUM_STAGES]
  split_ifs <;>
    first | rfl | omega | (simp only [and_true, ne_eq] at * ; omega)

theorem cycleEndShift_advance (P : Nat → Nat → InstrData) (s i j : Nat)
    (hlo : s + 1 < i) (hhi : i ≤ 3) :
    cycleEndShift P s i j = P (i - 1) j := by
  simp only [cycleEndShift, resetBypasses, insertBubbles, pipelineMove,
             SIF, SEX, SMW, NUM_STAGES]
  split_ifs <;>
    first | rfl | omega | (simp only [and_true, ne_eq] at * ; omega)

theorem cycleEndShift_nostall (P : Nat → Nat → InstrData) (i j : Nat)
    (hlo : 1 ≤ i) (hhi : i ≤ 3) : cycleEndShift P 0 i j = P (i - 1) j := by
  simp only [cycleEndShift, resetBypasses, insertBubbles, pipelineMove,
             SIF, SEX, SMW, NUM_STAGES]
  split_ifs <;>
    first | rfl | omega | (simp only [and_true, ne_eq] at * ; omega)

theorem cycleEndShift_freeze (P : Nat → Nat → InstrData) (i j : Nat)
    (hne : i ≠ 2) : cycleEndShift P 3 i j = P i j := by
  simp only [cycleEndShift, resetBypasses, insertBubbles, pipelineMove,
             SIF, SEX, SMW, NUM_STAGES]
  split_ifs <;>
    first | rfl | omega | (simp only [and_true, ne_eq] at * ; omega)

theorem cycleEndShift_bypass_reset (P : Nat → Nat → InstrData) (j : Nat) :
    cycleEndShift P 3 2 j = { P 2 j with GPR_EX_Rd := none } := by
  simp only [cycleEndShift, resetBypasses, insertBubbles, pipelineMove,
             SIF, SEX, SMW, NUM_STAGES]
  split_ifs <;>
    first | rfl | omega | (simp only [and_true, ne_eq] at * ; omega)

/-- Claim C1 (amended): at the end of a cycle `Stall` is the maximum of the
stall levels raised during the cycle's passes (`SIF` when none was raised);
records at stages at or below `Stall` stay in place; records at stages
strictly above `Stall` advance one stage; a bubble is inserted at stage
`Stall + 1` only when `SIF < Stall < NUM_STAGES - 1`; when `Stall =
NUM_STAGES - 1` the whole pipeline keeps its contents; when `Stall = SIF`
no bubble is inserted (the old IF record advances to DR and IF is refilled
by fetch); when `Stall > SEX` the EX-stage bypass registers of both slots
are reset. -/
theorem pipeline_stall_shift_amended (P : Nat → Nat → InstrData)
    (raises : List Nat) :
    (∀ x ∈ raises, x ≤ finalStall raises) ∧
    (finalStall raises ∈ raises ∨ finalStall raises = SIF) ∧
    (SIF < finalStall raises → finalStall raises < NUM_STAGES - 1 →
      (∀ i j, i ≤ finalStall raises →
        cycleEndShift P (finalStall raises) i j = P i j) ∧
      (∀ j, cycleEndShift P (finalStall raises) (finalStall raises + 1) j
        = bubble) ∧
      (∀ i j, finalStall raises + 1 < i → i ≤ SMW →
        cycleEndShift P (finalStall raises) i j = P (i - 1) j)) ∧
    (finalStall raises = NUM_STAGES - 1 →
      (∀ i j, i ≠ SEX → cycleEndShift P (finalStall raises) i j = P i j) ∧
      (∀ j, cycleEndShift P (finalStall raises) SEX j
        = { P SEX j with GPR_EX_Rd := none })) ∧
    (finalStall raises = SIF →
      (∀ j, cycleEndShift P SIF SIF j = P SIF j) ∧
      (∀ i j, SIF < i → i ≤ SMW →
        cycleEndShift P SIF i j = P (i - 1) j)) := by
  refine ⟨fun x hx => mem_le_foldl_max raises SIF x hx,
          foldl_max_mem raises SIF, ?_, ?_, ?_⟩
  · intro h0 h3
    simp only [SIF, NUM_STAGES] at h0 h3
    exact ⟨fun i j hi => cycleEndShift_stay P _ i j (by omega) hi,
           fun j => cycleEndShift_bubble P _ j h0 (by omega),
           fun i j hlo hhi => cycleEndShift_advance P _ i j hlo hhi⟩
  · intro h3
    simp only [NUM_STAGES] at h3
    rw [h3]
    exact ⟨fun i j hne => cycleEndShift_freeze P i j hne,
           fun j => cycleEndShift_bypass_reset P j⟩
  · intro h0
    refine ⟨fun j => cycleEndShift_stay P SIF SIF j (by simp [SIF]) le_rfl,
            fun i j hlo hhi => ?_⟩
    simp only [SIF] at hlo ⊢
    simp only [SMW] at hhi
    exact cycleEndShift_nostall P i j hlo hhi

/-- Concrete pipeline with a non-bubble record at the IF stage. -/
def pipeC1 : Nat → Nat → InstrData :=
  fun i j => if i = 0 ∧ j = 0 then { I := some 5 } else bubble

/-- Counterexample to claim C1 as stated: when no stall is raised, `Stall =
SIF ≠ NUM_STAGES - 1`, yet no bubble is inserted at stage `Stall + 1 = SDR`;
instead the old IF record advances there. -/
theorem pipeline_bubble_counterexample :
    finalStall [] ≠ NUM_STAGES - 1 ∧
    cycleEndShift pipeC1 (finalStall []) (finalStall [] + 1) 0 ≠ bubble ∧
    cycleEndShift pipeC1 (finalStall []) (finalStall [] + 1) 0
      = pipeC1 0 0 := by
  refine ⟨by decide, by decide, by decide⟩

/-! ### Register file and bypass slots

The register-file and bypass container types live in `instruction.h`, which
is not part of the available sources; they are modelled from the spec. -/

/-- Modelled from the spec (the register-file type of `instruction.h` is not
in the sources): the general-purpose register file has 32 registers and
index 0 is hard-wired to zero — writes to it are ignored and it reads as
zero. -/
def gprSet (g : Nat → Int) (idx : Nat) (v : Int) : Nat → Int :=
  fun k => if k = idx ∧ idx ≠ 0 then v else g k

/-- Modelled from the spec: reading a general-purpose register; register 0
always yields zero. -/
def gprGet (g : Nat → Int) (idx : Nat) : Int :=
  if idx = 0 then 0 else g idx

/-- Modelled from the spec: a register operand as staged at DR — the
register index together with the value read from the register file
(`GPR_op_t`). -/
structure GPROp where
  idx : Nat
  val : Int
deriving DecidableEq, Repr

/-- Modelled from the spec: a bypass is a single optional (index, value)
record; `get` substitutes the bypassed value when the producer index matches
the operand's register. -/
def bypassGet (bp : Option (Nat × Int)) (op : GPROp) : GPROp :=
  match bp with
  | some (i, v) => if i = op.idx then { op with val := v } else op
  | none => op

/-- Embedding of `i_pred_t::read_GPR_EX` (instructions.h): a read at EX
consults, in priority order, the EX bypass of slot 0, the EX bypass of slot
1, the MW bypasses of both slots, then the value staged from the register
file. -/
def read_GPR_EX (ex0 ex1 mw0 mw1 : Option (Nat × Int)) (op : GPROp) : Int :=
  (bypassGet ex0 (bypassGet ex1 (bypassGet mw0 (bypassGet mw1 op)))).val

/-! ### Claim C2: predicated ALUi/ALUl instructions (`i_aluil_t`) -/

/-- Staged state of an ALUi/ALUl instruction flowing through the pipeline
(the fields of `instruction_data_t` used by `i_aluil_t`). -/
structure ALUilData where
  Pred : Nat
  Rd : Nat
  Rs1 : Nat
  Imm2 : Int
  DR_Pred : Bool := false
  DR_Rs1 : GPROp := ⟨0, 0⟩
  EX_result : Int := 0
  GPR_EX_Rd : Option (Nat × Int) := none
  GPR_MW_Rd : Option (Nat × Int) := none
deriving DecidableEq, Repr

/-- Embedding of `i_aluil_t::DR`: latch the predicate value and the `Rs1`
register-file value. -/
def aluil_DR (prr : Nat → Bool) (g : Nat → Int) (ops : ALUilData) :
    ALUilData :=
  { ops with DR_Pred := prr ops.Pred, DR_Rs1 := ⟨ops.Rs1, gprGet g ops.Rs1⟩ }

/-- Embedding of `i_aluil_t::EX`: unconditionally compute the result from
the bypass-forwarded `Rs1` and the immediate. -/
def aluil_EX (compute : Int → Int → Int)
    (ex0 ex1 mw0 mw1 : Option (Nat × Int)) (ops : ALUilData) : ALUilData :=
  { ops with
    EX_result := compute (read_GPR_EX ex0 ex1 mw0 mw1 ops.DR_Rs1) ops.Imm2 }

/-- Embedding of `i_aluil_t::EX_commit`: write the result into the
instruction's own EX bypass, only under a true predicate. -/
def aluil_EX_commit (ops : ALUilData) : ALUilData :=
  if ops.DR_Pred then { ops with GPR_EX_Rd := some (ops.Rd, ops.EX_result) }
  else ops

/-- Embedding of `i_aluil_t::MW`: under a true predicate, commit the EX
bypass to the register file, copy it to the MW bypass, and reset the EX
bypass. -/
def aluil_MW (g : Nat → Int) (ops : ALUilData) : (Nat → Int) × ALUilData :=
  if ops.DR_Pred then
    (match ops.GPR_EX_Rd with
     | some (i, v) => gprSet g i v
     | none => g,
     { ops with GPR_MW_Rd := ops.GPR_EX_Rd, GPR_EX_Rd := none })
  else (g, ops)

/-- Concrete ALU instruction state with a false predicate latch, after DR. -/
def opsC2 : ALUilData :=
  { Pred := 1, Rd := 3, Rs1 := 4, Imm2 := 7,
    DR_Pred := false, DR_Rs1 := ⟨4, 10⟩ }

/-- Counterexample to claim C2 as stated: for a predicated ALU instruction
whose predicate latch is false, the EX pass computes the result, but
`EX_commit` does NOT write it into the EX bypass slot (the bypass stays
empty), so subsequent bypass readers observe the old register value rather
than the computed one. -/
theorem aluil_false_pred_bypass_counterexample :
    ALUilData.GPR_EX_Rd
        (aluil_EX_commit (aluil_EX (fun a b => a + b) none none none none
          opsC2))
      ≠ some (ALUilData.Rd
                (aluil_EX (fun a b => a + b) none none none none opsC2),
              ALUilData.EX_result
                (aluil_EX (fun a b => a + b) none none none none opsC2)) := by
  decide

/-- Claim C2 (amended): for a predicated ALU instruction whose predicate
latch `DR_Pred` is false, the EX pass still computes the result into
`EX_result`, but the `EX_commit` bypass write is suppressed exactly like the
MW register-file commit: the EX bypass slot stays unchanged and the MW pass
leaves the register file and the MW bypass untouched, so subsequent bypass
readers observe the old register value. -/
theorem aluil_false_pred_amended (compute : Int → Int → Int)
    (ex0 ex1 mw0 mw1 : Option (Nat × Int)) (g : Nat → Int) (ops : ALUilData)
    (hp : ops.DR_Pred = false) :
    (aluil_EX compute ex0 ex1 mw0 mw1 ops).EX_result
      = compute (read_GPR_EX ex0 ex1 mw0 mw1 ops.DR_Rs1) ops.Imm2 ∧
    aluil_EX_commit (aluil_EX compute ex0 ex1 mw0 mw1 ops)
      = aluil_EX compute ex0 ex1 mw0 mw1 ops ∧
    aluil_MW g ops = (g, ops) := by
  refine ⟨rfl, ?_, ?_⟩
  · unfold aluil_EX_commit
    rw [if_neg (by simp [aluil_EX, hp])]
  · unfold aluil_MW
    rw [if_neg (by simp [hp])]

/-- Witness for the amended C2 at the concrete instruction state `opsC2`. -/
theorem aluil_false_pred_amended_witness :
    (aluil_EX (fun a b => a + b) none none none none opsC2).EX_result
      = (fun a b => a + b) (read_GPR_EX none none none none opsC2.DR_Rs1)
          opsC2.Imm2 ∧
    aluil_EX_commit (aluil_EX (fun a b => a + b) none none none none opsC2)
      = aluil_EX (fun a b => a + b) none none none none opsC2 ∧
    aluil_MW (fun _ => 0) opsC2 = (fun _ => 0, opsC2) :=
  aluil_false_pred_amended (fun a b => a + b) none none none none
    (fun _ => 0) opsC2 rfl

/-! ### Claim C7: load instructions (`i_ldt_t` and the `LD_INSTR` macro) -/

/-- Staged state of a load instruction (the fields of `instruction_data_t`
used by `i_ldt_t`). -/
structure LDTData where
  Pred : Nat
  Rd : Nat
  Ra : Nat
  Imm : Int
  DR_Pred : Bool := false
  DR_Rs1 : GPROp := ⟨0, 0⟩
  EX_Address : Nat := 0
  GPR_MW_Rd : Option (Nat × Int) := none
deriving DecidableEq, Repr

/-- Embedding of `i_ldt_t::DR`: latch the predicate and the `Ra` register
value. -/
def ldt_DR (prr : Nat → Bool) (g : Nat → Int) (ops : LDTData) : LDTData :=
  { ops with DR_Pred := prr ops.Pred, DR_Rs1 := ⟨ops.Ra, gprGet g ops.Ra⟩ }

/-- Embedding of the `LD_INSTR` EX hook: the access address is the
bypass-forwarded `Rs1` plus the immediate scaled by the access width, as a
32-bit word. -/
def ldt_EX (w : Nat) (ex0 ex1 mw0 mw1 : Option (Nat × Int))
    (ops : LDTData) : LDTData :=
  { ops with
    EX_Address :=
      ((read_GPR_EX ex0 ex1 mw0 mw1 ops.DR_Rs1 + ops.Imm * w).emod
        (2 ^ 32)).toNat }

/-- Embedding of the `LD_INSTR` load hook: unaligned addresses (low bits
under the width mask nonzero) raise `UNALIGNED`; otherwise the target
memory's `read_fixed` yields either the converted value or not-ready
(`none`).  The target memory and the big-endian/sign conversion are
abstracted into the oracle `mem`. -/
def ldt_load (mem : Nat → Option Int) (w : Nat) (address : Nat) :
    Except Exc (Option Int) :=
  if address &&& (w - 1) ≠ 0 then .error (.unaligned address)
  else .ok (mem address)

/-- Embedding of `i_ldt_t::MW`: under a true predicate, perform the load; on
success write the destination register and the MW bypass, otherwise raise a
stall at stage `SMW` (third component) and leave the register file alone. -/
def ldt_MW (mem : Nat → Option Int) (w : Nat) (g : Nat → Int)
    (ops : LDTData) : Except Exc ((Nat → Int) × LDTData × Option Nat) :=
  if ops.DR_Pred then
    match ldt_load mem w ops.EX_Address with
    | .error e => .error e
    | .ok (some v) =>
      .ok (gprSet g ops.Rd v, { ops with GPR_MW_Rd := some (ops.Rd, v) },
           none)
    | .ok none => .ok (g, ops, some SMW)
  else .ok (g, ops, none)

theorem and_mask_eq_mod (a w : Nat) (hw : w = 1 ∨ w = 2 ∨ w = 4) :
    a &&& (w - 1) = a % w := by
  rcases hw with h | h | h <;> subst h
  · simp [Nat.mod_one]
  · simpa using Nat.and_one_is_mod a
  · have h4 := Nat.and_pow_two_sub_one_eq_mod a 2
    norm_num at h4
    exact h4

theorem bypassGet_idx (bp : Option (Nat × Int)) (op : GPROp) :
    (bypassGet bp op).idx = op.idx := by
  cases bp with
  | none => rfl
  | some p =>
    rcases p with ⟨i, v⟩
    simp only [bypassGet]
    split <;> rfl

theorem read_GPR_EX_slot0 (ex0 ex1 mw0 mw1 : Option (Nat × Int))
    (op : GPROp) (v : Int) (hv : ex0 = some (op.idx, v)) :
    read_GPR_EX ex0 ex1 mw0 mw1 op = v := by
  unfold read_GPR_EX
  rw [hv]
  generalize hq : bypassGet ex1 (bypassGet mw0 (bypassGet mw1 op)) = q
  have hidx : q.idx = op.idx := by
    rw [← hq, bypassGet_idx, bypassGet_idx, bypassGet_idx]
  simp [bypassGet, hidx]

/-- Claim C7: for a load of width `w` with a true predicate, EX computes the
address as the bypass-forwarded `Rs1` plus the immediate times `w` (the EX
bypass of slot 0 has top forwarding priority; with no bypasses set the
register-file value staged at DR is used); if the address is not a multiple
of `w` the MW pass raises `UNALIGNED` carrying that address; otherwise, when
the memory is not ready, MW raises a stall at stage `SMW` and leaves the
register file unchanged, and when it is ready the destination register is
written. -/
theorem load_instruction_behavior (mem : Nat → Option Int) (w : Nat)
    (hw : w = 1 ∨ w = 2 ∨ w = 4) (ex0 ex1 mw0 mw1 : Option (Nat × Int))
    (g : Nat → Int) (ops : LDTData) (hp : ops.DR_Pred = true) :
    (∀ v, ex0 = some (ops.DR_Rs1.idx, v) →
      (ldt_EX w ex0 ex1 mw0 mw1 ops).EX_Address
        = ((v + ops.Imm * w).emod (2 ^ 32)).toNat) ∧
    ((ldt_EX w none none none none ops).EX_Address
      = ((ops.DR_Rs1.val + ops.Imm * w).emod (2 ^ 32)).toNat) ∧
    (ops.EX_Address % w ≠ 0 →
      ldt_MW mem w g ops = .error (.unaligned ops.EX_Address)) ∧
    (ops.EX_Address % w = 0 → mem ops.EX_Address = none →
      ldt_MW mem w g ops = .ok (g, ops, some SMW)) ∧
    (∀ v, ops.EX_Address % w = 0 → mem ops.EX_Address = some v →
      ldt_MW mem w g ops
        = .ok (gprSet g ops.Rd v,
               { ops with GPR_MW_Rd := some (ops.Rd, v) }, none)) := by
  refine ⟨?_, ?_, ?_, ?_, ?_⟩
  · intro v hv
    simp [ldt_EX, read_GPR_EX_slot0 ex0 ex1 mw0 mw1 ops.DR_Rs1 v hv]
  · simp [ldt_EX, read_GPR_EX, bypassGet]
  · intro hun
    rw [← and_mask_eq_mod ops.EX_Address w hw] at hun
    simp [ldt_MW, ldt_load, hp, hun]
  · intro hal hmem
    rw [← and_mask_eq_mod ops.EX_Address w hw] at hal
    simp [ldt_MW, ldt_load, hp, hal, hmem]
  · intro v hal hmem
    rw [← and_mask_eq_mod ops.EX_Address w hw] at hal
    simp [ldt_MW, ldt_load, hp, hal, hmem]

/-- Witness for C7: a half-word load (w = 2) at the odd address 3 raises
`UNALIGNED 3`; at the even address 2 with a ready memory returning 7 the
destination register 5 is written. -/
theorem load_instruction_behavior_witness :
    let ops : LDTData :=
      { Pred := 0, Rd := 5, Ra := 4, Imm := 1, DR_Pred := true,
        DR_Rs1 := ⟨4, 1⟩, EX_Address := 3 }
    let mem : Nat → Option Int := fun _ => some 7
    (∀ v, (none : Option (Nat × Int)) = some (ops.DR_Rs1.idx, v) →
      (ldt_EX 2 none none none none ops).EX_Address
        = ((v + ops.Imm * 2).emod (2 ^ 32)).toNat) ∧
    ((ldt_EX 2 none none none none ops).EX_Address
      = ((ops.DR_Rs1.val + ops.Imm * 2).emod (2 ^ 32)).toNat) ∧
    (ops.EX_Address % 2 ≠ 0 →
      ldt_MW mem 2 (fun _ => 0) ops = .error (.unaligned ops.EX_Address)) ∧
    (ops.EX_Address % 2 = 0 → mem ops.EX_Address = none →
      ldt_MW mem 2 (fun _ => 0) ops = .ok (fun _ => 0, ops, some SMW)) ∧
    (∀ v, ops.EX_Address % 2 = 0 → mem ops.EX_Address = some v →
      ldt_MW mem 2 (fun _ => 0) ops
        = .ok (gprSet (fun _ => 0) ops.Rd v,
               { ops with GPR_MW_Rd := some (ops.Rd, v) }, none)) :=
  load_instruction_behavior (fun _ => some 7) 2 (Or.inr (Or.inl rfl))
    none none none none (fun _ => 0)
    { Pred := 0, Rd := 5, Ra := 4, Imm := 1, DR_Pred := true,
      DR_Rs1 := ⟨4, 1⟩, EX_Address := 3 } rfl

/-! ### Claim C8: decoupled loads (`i_dldt_t`, `DLD_INSTR`, `i_spcw_t`) -/

/-- Staged state of a decoupled load instruction (fields of
`instruction_data_t` used by `i_dldt_t`). -/
structure DLDData where
  Pred : Nat
  Ra : Nat
  Imm : Int
  DR_Pred : Bool := false
  DR_Rs1 : GPROp := ⟨0, 0⟩
  EX_Address : Nat := 0
deriving DecidableEq, Repr

/-- Side-channel state of the core: the `Decoupled_load` record (`none` is
the bubble left by `instruction_data_t()`), the `Is_decoupled_load_active`
flag, and the `sm` special register receiving the result. -/
structure DLDChannel where
  Decoupled_load : Option DLDData := none
  Is_decoupled_load_active : Bool := false
  sm : Int := 0
deriving DecidableEq, Repr

/-- Embedding of `i_dldt_t::DR`: latch predicate and `Ra`; raise a stall at
`SDR` (returned stage) when the predicate is true and a decoupled load is
already active. -/
def dldt_DR (c : DLDChannel) (prr : Nat → Bool) (g : Nat → Int)
    (ops : DLDData) : DLDData × Option Nat :=
  let ops2 := { ops with DR_Pred := prr ops.Pred,
                         DR_Rs1 := ⟨ops.Ra, gprGet g ops.Ra⟩ }
  (ops2,
   if ops2.DR_Pred ∧ c.Is_decoupled_load_active then some SDR else none)

/-- Embedding of the `DLD_INSTR` EX hook: compute the address; under a true
predicate hand the instruction to the `Decoupled_load` side channel and set
the active flag (the source asserts that no decoupled load is active). -/
def dldt_EX (c : DLDChannel) (w : Nat)
    (ex0 ex1 mw0 mw1 : Option (Nat × Int)) (ops : DLDData) :
    DLDData × DLDChannel :=
  let ops2 :=
    { ops with
      EX_Address :=
        ((read_GPR_EX ex0 ex1 mw0 mw1 ops.DR_Rs1 + ops.Imm * w).emod
          (2 ^ 32)).toNat }
  if ops2.DR_Pred then
    (ops2, { c with Decoupled_load := some ops2,
                    Is_decoupled_load_active := true })
  else (ops2, c)

/-- Embedding of `i_dldt_t::dMW`, run once per cycle on the side channel
(`Decoupled_load.dMW(*this)` in `simulator_t::run`; the bubble's `dMW` is a
nop): attempt the load; on success write `sm`, clear the channel record and
the active flag in the same step. -/
def channel_dMW (c : DLDChannel) (mem : Nat → Option Int) (w : Nat) :
    Except Exc DLDChannel :=
  match c.Decoupled_load with
  | none => .ok c
  | some ops =>
    match ldt_load mem w ops.EX_Address with
    | .error e => .error e
    | .ok (some v) =>
      .ok { c with sm := v, Decoupled_load := none,
                   Is_decoupled_load_active := false }
    | .ok none => .ok c

/-- Embedding of `i_spcw_t::DR` (`waitm`): raise a stall at `SDR` while the
predicate is true and the decoupled-load channel is active. -/
def spcw_DR (c : DLDChannel) (prr : Nat → Bool) (pred : Nat) : Option Nat :=
  if prr pred ∧ c.Is_decoupled_load_active then some SDR else none

/-- Claim C8: the decoupled-load side channel has capacity one (a single
record guarded by the active flag).  A decoupled load with a true predicate
hands itself to the channel at EX and sets the active flag; while the
channel is active, any later decoupled load with a true predicate, and any
`waitm` with a true predicate, stalls at stage `SDR`; and when the channel's
`dMW` pass succeeds it writes the loaded value to `sm` and clears the
channel record and the active flag in the same cycle. -/
theorem decoupled_load_channel (c : DLDChannel) (prr : Nat → Bool)
    (g : Nat → Int) (mem : Nat → Option Int) (w : Nat)
    (ex0 ex1 mw0 mw1 : Option (Nat × Int)) (ops : DLDData) (pred : Nat)
    (v : Int) :
    (ops.DR_Pred = true → c.Is_decoupled_load_active = false →
      ((dldt_EX c w ex0 ex1 mw0 mw1 ops).2).Is_decoupled_load_active = true ∧
      ((dldt_EX c w ex0 ex1 mw0 mw1 ops).2).Decoupled_load
        = some (dldt_EX c w ex0 ex1 mw0 mw1 ops).1) ∧
    (prr ops.Pred = true → c.Is_decoupled_load_active = true →
      (dldt_DR c prr g ops).2 = some SDR) ∧
    (prr pred = true → c.Is_decoupled_load_active = true →
      spcw_DR c prr pred = some SDR) ∧
    (∀ dops, c.Decoupled_load = some dops →
      dops.EX_Address &&& (w - 1) = 0 → mem dops.EX_Address = some v →
      channel_dMW c mem w
        = .ok { c with sm := v, Decoupled_load := none,
                       Is_decoupled_load_active := false }) := by
  refine ⟨?_, ?_, ?_, ?_⟩
  · intro hp _
    simp [dldt_EX, hp]
  · intro hp hact
    simp [dldt_DR, hp, hact]
  · intro hp hact
    simp [spcw_DR, hp, hact]
  · intro dops hch hal hmem
    simp [channel_dMW, hch, ldt_load, hal, hmem]

/-- Witness for C8 at a concrete channel state and decoupled word load. -/
theorem decoupled_load_channel_witness :
    let ops : DLDData := { Pred := 0, Ra := 4, Imm := 0, DR_Pred := true,
                           DR_Rs1 := ⟨4, 8⟩, EX_Address := 8 }
    let c : DLDChannel := { Decoupled_load := some ops,
                            Is_decoupled_load_active := true, sm := 0 }
    let prr : Nat → Bool := fun _ => true
    let mem : Nat → Option Int := fun _ => some 9
    (ops.DR_Pred = true → c.Is_decoupled_load_active = false →
      ((dldt_EX c 4 none none none none ops).2).Is_decoupled_load_active
        = true ∧
      ((dldt_EX c 4 none none none none ops).2).Decoupled_load
        = some (dldt_EX c 4 none none none none ops).1) ∧
    (prr ops.Pred = true → c.Is_decoupled_load_active = true →
      (dldt_DR c prr (fun _ => 0) ops).2 = some SDR) ∧
    (prr 0 = true → c.Is_decoupled_load_active = true →
      spcw_DR c prr 0 = some SDR) ∧
    (∀ dops, c.Decoupled_load = some dops →
      dops.EX_Address &&& (4 - 1) = 0 → mem dops.EX_Address = some 9 →
      channel_dMW c mem 4
        = .ok { c with sm := 9, Decoupled_load := none,
                       Is_decoupled_load_active := false }) :=
  decoupled_load_channel
    { Decoupled_load := some { Pred := 0, Ra := 4, Imm := 0, DR_Pred := true,
                               DR_Rs1 := ⟨4, 8⟩, EX_Address := 8 },
      Is_decoupled_load_active := true, sm := 0 }
    (fun _ => true) (fun _ => 0) (fun _ => some 9) 4 none none none none
    { Pred := 0, Ra := 4, Imm := 0, DR_Pred := true,
      DR_Rs1 := ⟨4, 8⟩, EX_Address := 8 } 0 9

/-! ### Claim C6: return to base 0 is a halt (`i_ret_t`) -/

/-- Staged state of a `ret` instruction (fields of `instruction_data_t` used
by `i_ret_t`). -/
structure RetData where
  Pred : Nat
  Rb : Nat
  Ro : Nat
  DR_Pred : Bool := false
  DR_Base : Int := 0
  DR_Offset : Int := 0
  EX_PFL_Discard : Bool := false
deriving DecidableEq, Repr

/-- Control-flow state touched by `fetch_and_dispatch`: the current method
base and the program counters. -/
structure CFState where
  BASE : Int
  PC : Int
  nPC : Int
deriving DecidableEq, Repr

/-- Embedding of `i_pfl_t::fetch_and_dispatch`: under a true predicate and
no prior dispatch, stall at `SEX` while the method cache does not report the
target base available; once available set `BASE` and `PC = nPC = address`
and mark the instruction dispatched. -/
def fetch_and_dispatch (mcAvail : Int → Bool) (st : CFState) (ops : RetData)
    (pred : Bool) (base address : Int) : RetData × CFState × Option Nat :=
  if pred ∧ ¬ops.EX_PFL_Discard then
    if ¬mcAvail base then (ops, st, some SEX)
    else ({ ops with EX_PFL_Discard := true },
          { st with BASE := base, PC := address, nPC := address }, none)
  else (ops, st, none)

/-- Embedding of `i_ret_t::EX`: a predicated return to base 0 stalls the
first stage (`SDR`) and performs no dispatch; otherwise it dispatches to
`DR_Base + DR_Offset` through the method cache. -/
def ret_EX (mcAvail : Int → Bool) (st : CFState) (ops : RetData) :
    RetData × CFState × Option Nat :=
  if ops.DR_Pred ∧ ops.DR_Base = 0 then (ops, st, some SDR)
  else fetch_and_dispatch mcAvail st ops ops.DR_Pred ops.DR_Base
    (ops.DR_Base + ops.DR_Offset)

/-- Embedding of `i_ret_t::MW_commit`: a predicated return to base 0 raises
the `HALT` exception carrying the exit-code register's contents. -/
def ret_MW_commit (g : Nat → Int) (ops : RetData) : Except Exc Unit :=
  if ops.DR_Pred ∧ ops.DR_Base = 0 then
    .error (.halt (gprGet g GPR_EXIT_CODE_INDEX))
  else .ok ()

/-- Claim C6: for every `ret` with a true predicate and return base 0, the
MW commit raises `HALT` whose detail is the contents of the exit-code
register `r1` at that point, and the EX pass performs no method-cache
dispatch whatsoever (for every availability oracle, the control-flow state
is unchanged, the instruction is not marked dispatched, and a stall at `SDR`
is raised instead). -/
theorem ret_base_zero_halt (g : Nat → Int) (ops : RetData)
    (mcAvail : Int → Bool) (st : CFState)
    (hp : ops.DR_Pred = true) (hb : ops.DR_Base = 0) :
    ret_MW_commit g ops
      = .error (.halt (gprGet g GPR_EXIT_CODE_INDEX)) ∧
    ret_EX mcAvail st ops = (ops, st, some SDR) := by
  constructor
  · simp [ret_MW_commit, hp, hb]
  · simp [ret_EX, hp, hb]

/-- Witness for C6: a predicated `ret` with base register value 0 and exit
code 5 in `r1` halts with detail 5 and does not dispatch. -/
theorem ret_base_zero_halt_witness :
    let g : Nat → Int := fun k => if k = 1 then 5 else 0
    let ops : RetData := { Pred := 0, Rb := 30, Ro := 31, DR_Pred := true,
                           DR_Base := 0, DR_Offset := 0 }
    let st : CFState := { BASE := 100, PC := 104, nPC := 108 }
    ret_MW_commit g ops = .error (.halt (gprGet g GPR_EXIT_CODE_INDEX)) ∧
    ret_EX (fun _ => false) st ops = (ops, st, some SDR) :=
  ret_base_zero_halt _ _ (fun _ => false) _ rfl rfl

/-! ### Block stack cache (`block_stack_cache_t`, stack-cache.h)

The cache state keeps the block counters and the byte size of the inherited
`ideal_stack_cache_t` content vector (`Content.size()`); the byte contents
themselves and the spill `Buffer` copy do not influence the claims.  Memory
traffic is made observable by returning the list of `Memory.read`/`write`
calls a step performs. -/

/-- Transfer phases of the stack cache (`block_stack_cache_t::phase_e`). -/
inductive SCPhase where
  | IDLE
  | SPILL
  | FILL
deriving DecidableEq, Repr

/-- A memory access issued by the stack cache to its backing memory. -/
structure MemOp where
  isWrite : Bool
  address : Nat
  size : Nat
deriving DecidableEq, Repr

/-- State of `block_stack_cache_t`: configuration (`NUM_BLOCK_BYTES`
template parameter, `Num_blocks`, `Num_blocks_total`), the transfer phase,
the pending transfer size, the two block counters, the inherited content
size in bytes, and the `Num_free_empty` statistic mentioned by the claims. -/
structure BlockStackCache where
  numBlockBytes : Nat
  Num_blocks : Nat
  Num_blocks_total : Nat
  Phase : SCPhase
  Num_transfer_blocks : Nat
  Num_reserved_blocks : Nat
  Num_spilled_blocks : Nat
  contentSize : Nat
  Num_free_empty : Nat
deriving DecidableEq, Repr

/-- Byte-to-block conversion of the stack cache
(`std::ceil((float)size / (float)NUM_BLOCK_BYTES)` in the source): exact
ceiling division.  The float computation coincides with it on the whole
argument range exercised by the simulator (sizes below 2^24 with the
power-of-two block sizes used by the instantiations). -/
def ceilBlocks (size b : Nat) : Nat := (size + b - 1) / b

/-- The `case SPILL` body of `block_stack_cache_t::reserve`: attempt a
memory write of the pending blocks at the current stack top; on completion
move the blocks from `reserved` to `spilled`, decrement the stack top by the
spilled byte count and return to `IDLE`; otherwise keep waiting. -/
def bscSpillStep (c : BlockStackCache) (stackTop : Nat)
    (memWriteReady : Bool) :
    Bool × BlockStackCache × Nat × List MemOp :=
  let op : MemOp := { isWrite := true, address := stackTop,
                      size := c.Num_transfer_blocks * c.numBlockBytes }
  if memWriteReady then
    (true,
     { c with
       Num_reserved_blocks := c.Num_reserved_blocks - c.Num_transfer_blocks,
       Num_spilled_blocks := c.Num_spilled_blocks + c.Num_transfer_blocks,
       Num_transfer_blocks := 0,
       Phase := .IDLE },
     stackTop - c.Num_transfer_blocks * c.numBlockBytes, [op])
  else (false, c, stackTop, [op])

/-- Embedding of `block_stack_cache_t::reserve`.  In `IDLE`: reject sizes
beyond the cache capacity, add the blocks to `reserved` (growing the
content), finish if they fit on-cache, otherwise set up the overflow spill
(rejecting when the spilled total would exceed `Num_blocks_total`) and fall
through to the `SPILL` phase, which is also where later calls resume.  The
`FILL` case asserts false in the source (unreachable); it is mapped to a
no-progress result. -/
def bscReserve (c : BlockStackCache) (size stackTop : Nat)
    (memWriteReady : Bool) :
    Except Exc (Bool × BlockStackCache × Nat × List MemOp) :=
  let sb := ceilBlocks size c.numBlockBytes
  match c.Phase with
  | .IDLE =>
    if sb > c.Num_blocks then .error .stackExceeded
    else
      let c1 :=
        { c with Num_reserved_blocks := c.Num_reserved_blocks + sb,
                 contentSize := c.contentSize + sb * c.numBlockBytes }
      if c1.Num_reserved_blocks ≤ c.Num_blocks then
        .ok (true, c1, stackTop, [])
      else
        let transfer := c1.Num_reserved_blocks - c.Num_blocks
        if transfer + c.Num_spilled_blocks > c.Num_blocks_total then
          .error .stackExceeded
        else
          .ok (bscSpillStep
            { c1 with Num_transfer_blocks := transfer, Phase := .SPILL }
            stackTop memWriteReady)
  | .SPILL => .ok (bscSpillStep c stackTop memWriteReady)
  | .FILL => .ok (false, c, stackTop, [])

/-- Embedding of `block_stack_cache_t::free` (the source asserts
`Phase == IDLE` on entry): reject sizes beyond the cache capacity or beyond
`reserved + spilled`; shrink the content (the inherited
`ideal_stack_cache_t::free` bound check included); if the freed blocks fit
within `reserved` only `reserved` shrinks, otherwise `spilled` is reduced by
the remainder, the stack top moves up by the remainder's byte count and the
emptying-free counter is bumped.  The body issues no memory accesses, hence
the always-empty traffic component. -/
def bscFree (c : BlockStackCache) (size stackTop : Nat) :
    Except Exc (BlockStackCache × Nat × List MemOp) :=
  let sb := ceilBlocks size c.numBlockBytes
  if sb > c.Num_blocks then .error .stackExceeded
  else if sb > c.Num_spilled_blocks + c.Num_reserved_blocks then
    .error .stackExceeded
  else if c.contentSize < sb * c.numBlockBytes then .error .stackExceeded
  else
    let c1 := { c with contentSize := c.contentSize - sb * c.numBlockBytes }
    if sb ≤ c.Num_reserved_blocks then
      .ok ({ c1 with Num_reserved_blocks := c.Num_reserved_blocks - sb },
           stackTop, [])
    else
      let freedSpilled := sb - c.Num_reserved_blocks
      .ok ({ c1 with
             Num_spilled_blocks := c.Num_spilled_blocks - freedSpilled,
             Num_reserved_blocks := 0,
             Num_free_empty := c.Num_free_empty + 1 },
           stackTop + freedSpilled * c.numBlockBytes, [])

/-! ### Claim C4: `block_stack_cache_t::reserve` -/

/-- Concrete stack cache for the C4 counterexample: 4-byte blocks, 2 blocks
on-cache, 3 blocks total, 2 blocks already spilled, nothing reserved. -/
def cexC4 : BlockStackCache :=
  { numBlockBytes := 4, Num_blocks := 2, Num_blocks_total := 3,
    Phase := .IDLE, Num_transfer_blocks := 0, Num_reserved_blocks := 0,
    Num_spilled_blocks := 2, contentSize := 8, Num_free_empty := 0 }

/-- Counterexample to claim C4's last clause as stated: reserving 2 blocks
(8 bytes) succeeds immediately although the resulting `reserved + spilled =
4` exceeds the configured total of 3 blocks — no `STACK_EXCEEDED` is
raised.  The source only checks the blocks to be spilled
(`Num_transfer_blocks + Num_spilled_blocks`) against the total. -/
theorem stack_reserve_total_counterexample :
    bscReserve cexC4 8 1000 true
      = .ok (true,
          { cexC4 with Num_reserved_blocks := 2, contentSize := 16 },
          1000, []) ∧
    (2 + 2 : Nat) > cexC4.Num_blocks_total ∧
    bscReserve cexC4 8 1000 true ≠ .error .stackExceeded := by
  refine ⟨rfl, by decide, ?_⟩
  rw [show bscReserve cexC4 8 1000 true
      = .ok (true, { cexC4 with Num_reserved_blocks := 2, contentSize := 16 },
             1000, []) from rfl]
  simp

/-- Claim C4 (amended): `reserve` converts bytes to blocks by ceiling
division and adds them to `reserved`; when `reserved` then exceeds the
on-cache capacity, a spill of exactly the overflow blocks is initiated (its
single memory operation is a write of that many blocks at the current stack
top), the call returns false while the memory write is not ready (leaving
the cache in the `SPILL` phase, where later calls resume), and on completion
the blocks move from `reserved` to `spilled` and the stack top is
decremented by the spilled byte count; the `STACK_EXCEEDED` failure occurs
when the overflow blocks plus the already spilled blocks (not `reserved +
spilled`) would exceed the configured total, or when the request alone
exceeds the cache capacity. -/
theorem stack_reserve_amended (c : BlockStackCache) (size stackTop : Nat)
    (ready : Bool) (hphase : c.Phase = .IDLE) :
    (ceilBlocks size c.numBlockBytes > c.Num_blocks →
      bscReserve c size stackTop ready = .error .stackExceeded) ∧
    (ceilBlocks size c.numBlockBytes ≤ c.Num_blocks →
      c.Num_reserved_blocks + ceilBlocks size c.numBlockBytes
          ≤ c.Num_blocks →
      bscReserve c size stackTop ready
        = .ok (true,
            { c with
              Num_reserved_blocks :=
                c.Num_reserved_blocks + ceilBlocks size c.numBlockBytes,
              contentSize :=
                c.contentSize
                  + ceilBlocks size c.numBlockBytes * c.numBlockBytes },
            stackTop, [])) ∧
    (ceilBlocks size c.numBlockBytes ≤ c.Num_blocks →
      c.Num_blocks
          < c.Num_reserved_blocks + ceilBlocks size c.numBlockBytes →
      (c.Num_reserved_blocks + ceilBlocks size c.numBlockBytes
            - c.Num_blocks) + c.Num_spilled_blocks > c.Num_blocks_total →
      bscReserve c size stackTop ready = .error .stackExceeded) ∧
    (∀ t, ceilBlocks size c.numBlockBytes ≤ c.Num_blocks →
      c.Num_blocks
          < c.Num_reserved_blocks + ceilBlocks size c.numBlockBytes →
      t = c.Num_reserved_blocks + ceilBlocks size c.numBlockBytes
            - c.Num_blocks →
      t + c.Num_spilled_blocks ≤ c.Num_blocks_total →
      (ready = false →
        bscReserve c size stackTop ready
          = .ok (false,
              { c with
                Num_reserved_blocks :=
                  c.Num_reserved_blocks + ceilBlocks size c.numBlockBytes,
                contentSize :=
                  c.contentSize
                    + ceilBlocks size c.numBlockBytes * c.numBlockBytes,
                Num_transfer_blocks := t,
                Phase := .SPILL },
              stackTop, [⟨true, stackTop, t * c.numBlockBytes⟩])) ∧
      (ready = true →
        bscReserve c size stackTop ready
          = .ok (true,
              { c with
                Num_reserved_blocks := c.Num_blocks,
                Num_spilled_blocks := c.Num_spilled_blocks + t,
                contentSize :=
                  c.contentSize
                    + ceilBlocks size c.numBlockBytes * c.numBlockBytes,
                Num_transfer_blocks := 0,
                Phase := .IDLE },
              stackTop - t * c.numBlockBytes,
              [⟨true, stackTop, t * c.numBlockBytes⟩]))) ∧
    (∀ c2 : BlockStackCache, c2.Phase = .SPILL →
      bscReserve c2 size stackTop ready
        = .ok (bscSpillStep c2 stackTop ready)) := by
  have hresume : ∀ c2 : BlockStackCache, c2.Phase = .SPILL →
      bscReserve c2 size stackTop ready
        = .ok (bscSpillStep c2 stackTop ready) := by
    intro c2 h2
    obtain ⟨bb2, nb2, nt2, ph2, ntb2, nrb2, nsb2, cs2, nfe2⟩ := c2
    simp only at h2
    subst h2
    simp only [bscReserve]
  obtain ⟨bb, nb, nt, ph, ntb, nrb, nsb, cs, nfe⟩ := c
  simp only at hphase
  subst hphase
  refine ⟨?_, ?_, ?_, ?_, hresume⟩
  · intro hgt
    simp only [bscReserve]
    rw [if_pos hgt]
  · intro hle hfit
    simp only [bscReserve]
    rw [if_neg (by simp only at hle ⊢; omega)]
    simp only at hfit
    rw [if_pos hfit]
  · intro hle hover hexc
    simp only [bscReserve]
    simp only at hle hover hexc
    rw [if_neg (by omega), if_neg (by omega), if_pos (by omega)]
  · intro t hle hover ht htot
    simp only at hle hover ht htot
    subst ht
    constructor
    · intro hready
      subst hready
      simp only [bscReserve]
      rw [if_neg (by omega), if_neg (by omega), if_neg (by omega)]
      simp only [bscSpillStep]
      rw [if_neg (by simp)]
    · intro hready
      subst hready
      simp only [bscReserve]
      rw [if_neg (by omega), if_neg (by omega), if_neg (by omega)]
      simp only [bscSpillStep, if_true]
      rw [show nrb + ceilBlocks size bb - (nrb + ceilBlocks size bb - nb) = nb
          from by omega]

/-- Witness for the amended C4: cache with 4-byte blocks, capacity 4,
total 16, 3 blocks reserved; reserving 12 bytes (3 blocks) spills 2 blocks
when the memory is ready. -/
theorem stack_reserve_amended_witness :
    let c : BlockStackCache :=
      { numBlockBytes := 4, Num_blocks := 4, Num_blocks_total := 16,
        Phase := .IDLE, Num_transfer_blocks := 0, Num_reserved_blocks := 3,
        Num_spilled_blocks := 0, contentSize := 12, Num_free_empty := 0 }
    (ceilBlocks 12 c.numBlockBytes > c.Num_blocks →
      bscReserve c 12 100 true = .error .stackExceeded) ∧
    (ceilBlocks 12 c.numBlockBytes ≤ c.Num_blocks →
      c.Num_reserved_blocks + ceilBlocks 12 c.numBlockBytes
          ≤ c.Num_blocks →
      bscReserve c 12 100 true
        = .ok (true,
            { c with
              Num_reserved_blocks :=
                c.Num_reserved_blocks + ceilBlocks 12 c.numBlockBytes,
              contentSize :=
                c.contentSize
                  + ceilBlocks 12 c.numBlockBytes * c.numBlockBytes },
            100, [])) ∧
    (ceilBlocks 12 c.numBlockBytes ≤ c.Num_blocks →
      c.Num_blocks < c.Num_reserved_blocks + ceilBlocks 12 c.numBlockBytes →
      (c.Num_reserved_blocks + ceilBlocks 12 c.numBlockBytes
            - c.Num_blocks) + c.Num_spilled_blocks > c.Num_blocks_total →
      bscReserve c 12 100 true = .error .stackExceeded) ∧
    (∀ t, ceilBlocks 12 c.numBlockBytes ≤ c.Num_blocks →
      c.Num_blocks < c.Num_reserved_blocks + ceilBlocks 12 c.numBlockBytes →
      t = c.Num_reserved_blocks + ceilBlocks 12 c.numBlockBytes
            - c.Num_blocks →
      t + c.Num_spilled_blocks ≤ c.Num_blocks_total →
      (true = false →
        bscReserve c 12 100 true
          = .ok (false,
              { c with
                Num_reserved_blocks :=
                  c.Num_reserved_blocks + ceilBlocks 12 c.numBlockBytes,
                contentSize :=
                  c.contentSize
                    + ceilBlocks 12 c.numBlockBytes * c.numBlockBytes,
                Num_transfer_blocks := t,
                Phase := .SPILL },
              100, [⟨true, 100, t * c.numBlockBytes⟩])) ∧
      (true = true →
        bscReserve c 12 100 true
          = .ok (true,
              { c with
                Num_reserved_blocks := c.Num_blocks,
                Num_spilled_blocks := c.Num_spilled_blocks + t,
                contentSize :=
                  c.contentSize
                    + ceilBlocks 12 c.numBlockBytes * c.numBlockBytes,
                Num_transfer_blocks := 0,
                Phase := .IDLE },
              100 - t * c.numBlockBytes,
              [⟨true, 100, t * c.numBlockBytes⟩]))) ∧
    (∀ c2 : BlockStackCache, c2.Phase = .SPILL →
      bscReserve c2 12 100 true = .ok (bscSpillStep c2 100 true)) :=
  stack_reserve_amended
    { numBlockBytes := 4, Num_blocks := 4, Num_blocks_total := 16,
      Phase := .IDLE, Num_transfer_blocks := 0, Num_reserved_blocks := 3,
      Num_spilled_blocks := 0, contentSize := 12, Num_free_empty := 0 }
    12 100 true rfl

/-! ### Claim C9: `block_stack_cache_t::free` -/

/-- Concrete stack cache for the C9 counterexample: 4-byte blocks, 4 blocks
on-cache, 1 block reserved, nothing spilled. -/
def cexC9 : BlockStackCache :=
  { numBlockBytes := 4, Num_blocks := 4, Num_blocks_total := 16,
    Phase := .IDLE, Num_transfer_blocks := 0, Num_reserved_blocks := 1,
    Num_spilled_blocks := 0, contentSize := 4, Num_free_empty := 0 }

/-- Counterexample to claim C9's second clause as stated: freeing 8 bytes
(2 blocks) with only 1 block reserved and none spilled raises
`STACK_EXCEEDED`; `spilled` is not reduced by `n - reserved` and the
emptying-free counter is not incremented, because `n` exceeds
`reserved + spilled`. -/
theorem stack_free_exceeded_counterexample :
    ceilBlocks 8 cexC9.numBlockBytes = 2 ∧
    cexC9.Num_reserved_blocks < 2 ∧
    bscFree cexC9 8 1000 = .error .stackExceeded := by
  refine ⟨by decide, by decide, rfl⟩

/-- Claim C9 (amended): for `free(n, stack_top)` with `n` blocks obtained by
ceiling division: when `n ≤ reserved`, the call succeeds with `spilled`,
`stack_top` and the emptying-free counter unchanged and no memory traffic;
when `reserved < n ≤ reserved + spilled` (and `n` is within the cache size
in blocks), `spilled` is reduced by exactly `n - reserved` with no memory
traffic, `stack_top` grows by that remainder times the block byte size and
the emptying-free counter is incremented; when `n` exceeds the cache size in
blocks or `reserved + spilled`, the call fails with `STACK_EXCEEDED`. -/
theorem stack_free_amended (c : BlockStackCache) (size stackTop : Nat)
    (hres : c.Num_reserved_blocks ≤ c.Num_blocks)
    (hcont : c.contentSize
      = (c.Num_reserved_blocks + c.Num_spilled_blocks) * c.numBlockBytes) :
    (ceilBlocks size c.numBlockBytes ≤ c.Num_reserved_blocks →
      bscFree c size stackTop
        = .ok ({ c with
                 Num_reserved_blocks :=
                   c.Num_reserved_blocks - ceilBlocks size c.numBlockBytes,
                 contentSize :=
                   c.contentSize
                     - ceilBlocks size c.numBlockBytes * c.numBlockBytes },
               stackTop, [])) ∧
    (c.Num_reserved_blocks < ceilBlocks size c.numBlockBytes →
      ceilBlocks size c.numBlockBytes ≤ c.Num_blocks →
      ceilBlocks size c.numBlockBytes
          ≤ c.Num_reserved_blocks + c.Num_spilled_blocks →
      bscFree c size stackTop
        = .ok ({ c with
                 Num_spilled_blocks :=
                   c.Num_spilled_blocks
                     - (ceilBlocks size c.numBlockBytes
                         - c.Num_reserved_blocks),
                 Num_reserved_blocks := 0,
                 contentSize :=
                   c.contentSize
                     - ceilBlocks size c.numBlockBytes * c.numBlockBytes,
                 Num_free_empty := c.Num_free_empty + 1 },
               stackTop
                 + (ceilBlocks size c.numBlockBytes - c.Num_reserved_blocks)
                     * c.numBlockBytes, [])) ∧
    (ceilBlocks size c.numBlockBytes > c.Num_blocks ∨
        ceilBlocks size c.numBlockBytes
          > c.Num_reserved_blocks + c.Num_spilled_blocks →
      bscFree c size stackTop = .error .stackExceeded) := by
  obtain ⟨bb, nb, nt, ph, ntb, nrb, nsb, cs, nfe⟩ := c
  simp only at hres hcont
  subst hcont
  refine ⟨?_, ?_, ?_⟩
  · intro hle
    simp only at hle
    have hmul : ceilBlocks size bb * bb ≤ (nrb + nsb) * bb :=
      Nat.mul_le_mul_right _ (by omega)
    simp only [bscFree]
    rw [if_neg (by omega), if_neg (by omega), if_neg (by omega),
        if_pos hle]
  · intro hgt hle htot
    simp only at hgt hle htot
    have hmul : ceilBlocks size bb * bb ≤ (nrb + nsb) * bb :=
      Nat.mul_le_mul_right _ (by omega)
    simp only [bscFree]
    rw [if_neg (by omega), if_neg (by omega), if_neg (by omega),
        if_neg (by omega)]
  · intro hexc
    simp only at hexc
    simp only [bscFree]
    rcases Nat.lt_or_ge nb (ceilBlocks size bb) with hgt | hle2
    · rw [if_pos hgt]
    · rw [if_neg (by omega), if_pos (by omega)]

/-- Witness for the amended C9: cache with 4-byte blocks, 2 blocks reserved
and 3 spilled; freeing 16 bytes (4 blocks) empties the cache and returns
2 spilled blocks. -/
theorem stack_free_amended_witness :
    let c : BlockStackCache :=
      { numBlockBytes := 4, Num_blocks := 4, Num_blocks_total := 16,
        Phase := .IDLE, Num_transfer_blocks := 0, Num_reserved_blocks := 2,
        Num_spilled_blocks := 3, contentSize := 20, Num_free_empty := 0 }
    (ceilBlocks 16 c.numBlockBytes ≤ c.Num_reserved_blocks →
      bscFree c 16 100
        = .ok ({ c with
                 Num_reserved_blocks :=
                   c.Num_reserved_blocks - ceilBlocks 16 c.numBlockBytes,
                 contentSize :=
                   c.contentSize
                     - ceilBlocks 16 c.numBlockBytes * c.numBlockBytes },
               100, [])) ∧
    (c.Num_reserved_blocks < ceilBlocks 16 c.numBlockBytes →
      ceilBlocks 16 c.numBlockBytes ≤ c.Num_blocks →
      ceilBlocks 16 c.numBlockBytes
          ≤ c.Num_reserved_blocks + c.Num_spilled_blocks →
      bscFree c 16 100
        = .ok ({ c with
                 Num_spilled_blocks :=
                   c.Num_spilled_blocks
                     - (ceilBlocks 16 c.numBlockBytes
                         - c.Num_reserved_blocks),
                 Num_reserved_blocks := 0,
                 contentSize :=
                   c.contentSize
                     - ceilBlocks 16 c.numBlockBytes * c.numBlockBytes,
                 Num_free_empty := c.Num_free_empty + 1 },
               100 + (ceilBlocks 16 c.numBlockBytes - c.Num_reserved_blocks)
                       * c.numBlockBytes, [])) ∧
    (ceilBlocks 16 c.numBlockBytes > c.Num_blocks ∨
        ceilBlocks 16 c.numBlockBytes
          > c.Num_reserved_blocks + c.Num_spilled_blocks →
      bscFree c 16 100 = .error .stackExceeded) :=
  stack_free_amended
    { numBlockBytes := 4, Num_blocks := 4, Num_blocks_total := 16,
      Phase := .IDLE, Num_transfer_blocks := 0, Num_reserved_blocks := 2,
      Num_spilled_blocks := 3, contentSize := 20, Num_free_empty := 0 }
    16 100 (by decide) rfl

/-! ### Method cache (`lru_method_cache_t`, method-cache.h)

The `Methods` array (MRU at index `Num_blocks - 1`, the active entries in
the top `Num_active_methods` slots) is modelled as a list indexed like the
array; an entry's backing byte buffer is identified by the `Instructions`
field (the pointer in the source — buffer contents are only touched in the
`TRANSFER` phase, which is beyond this claim). -/

/-- Loading phases of the method cache (`lru_method_cache_t::phase_e`). -/
inductive MCPhase where
  | IDLE
  | SIZE
  | TRANSFER
deriving DecidableEq, Repr

/-- Bookkeeping entry of a cached method (`method_info_t`). -/
structure MethodInfo where
  Instructions : Nat
  Address : Nat
  Num_blocks : Nat
  Num_bytes : Nat
deriving DecidableEq, Repr

/-- Default `method_info_t` (all data zero). -/
def dfltMI : MethodInfo := ⟨0, 0, 0, 0⟩

/-- State of `lru_method_cache_t` (statistics counters omitted). -/
structure LruMethodCache where
  numBlockBytes : Nat
  Num_blocks : Nat
  Phase : MCPhase
  Num_transfer_blocks : Nat
  Num_transfer_bytes : Nat
  Methods : List MethodInfo
  Num_active_methods : Nat
  Num_active_blocks : Nat
deriving DecidableEq, Repr

/-- Big-endian 32-bit word assembled from four consecutive memory bytes
(`from_big_endian<big_uword_t>` applied to the four bytes read at the given
address). -/
def readWordBE (mem : Nat → Nat) (a : Nat) : Nat :=
  mem a * 2 ^ 24 + mem (a + 1) * 2 ^ 16 + mem (a + 2) * 2 ^ 8 + mem (a + 3)

/-- Eviction loop of the `SIZE` phase
(`while (Num_active_blocks + Num_transfer_blocks > Num_blocks)`): repeatedly
discard the least-recently-used entry — the one at slot
`Num_blocks - Num_active_methods` — subtracting its blocks, until the new
method fits; returns the remaining (active methods, active blocks).  With
zero active methods the source's loop would fail its assertion; the model
returns unchanged there (unreachable under the claim's hypotheses). -/
def evictLoop (M : List MethodInfo) (N tB : Nat) :
    Nat → Nat → Nat × Nat
  | 0, activeBlocks => (0, activeBlocks)
  | a + 1, activeBlocks =>
    if activeBlocks + tB > N then
      evictLoop M N tB a
        (activeBlocks - (M.getD (N - (a + 1)) dfltMI).Num_blocks)
    else (a + 1, activeBlocks)

/-- Successful outcome of the `SIZE` phase: counters updated, LRU entries
evicted, surviving entries shifted down one slot, the new entry (reusing the
overwritten slot's byte buffer) inserted at the most-recently-used position,
phase moved to `TRANSFER`. -/
def mcSizeResult (c : LruMethodCache) (mem : Nat → Nat) (address : Nat) :
    LruMethodCache :=
  let tBytes := readWordBE mem (address - 4)
  let tBlocks := ceilBlocks tBytes c.numBlockBytes
  let ev := evictLoop c.Methods c.Num_blocks tBlocks
              c.Num_active_methods c.Num_active_blocks
  let active2 := ev.1 + 1
  let saved := (c.Methods.getD (c.Num_blocks - active2) dfltMI).Instructions
  { c with
    Num_transfer_bytes := tBytes,
    Num_transfer_blocks := tBlocks,
    Num_active_methods := active2,
    Num_active_blocks := ev.2 + tBlocks,
    Methods := c.Methods.take (c.Num_blocks - active2)
                 ++ c.Methods.drop (c.Num_blocks - active2 + 1)
                 ++ [⟨saved, address, tBlocks, tBytes⟩],
    Phase := .TRANSFER }

/-- Embedding of the `case SIZE` body of `lru_method_cache_t::is_available`:
when the 4-byte read at `address - 4` is ready, convert it from big endian,
ceiling-divide into blocks, raise `CODE_EXCEEDED` for a zero or oversized
block count, otherwise take the `mcSizeResult` transition; when the read is
not ready the state is unchanged (the call returns false and is re-entered
next cycle). -/
def mcSizeStep (c : LruMethodCache) (mem : Nat → Nat) (ready : Bool)
    (address : Nat) : Except Exc LruMethodCache :=
  if ready then
    if ceilBlocks (readWordBE mem (address - 4)) c.numBlockBytes = 0 ∨
        ceilBlocks (readWordBE mem (address - 4)) c.numBlockBytes
          > c.Num_blocks then
      .error (.codeExceeded address)
    else
      .ok (mcSizeResult c mem address)
  else .ok c

/-- Total block count of the active entries: the top `active` slots of the
`Methods` array. -/
def sumTailBlocks (M : List MethodInfo) (N active : Nat) : Nat :=
  ((M.drop (N - active)).map MethodInfo.Num_blocks).sum

theorem sumTailBlocks_zero (M : List MethodInfo) (N : Nat)
    (hlen : M.length = N) : sumTailBlocks M N 0 = 0 := by
  unfold sumTailBlocks
  rw [List.drop_eq_nil_of_le (by omega)]
  rfl

theorem sumTailBlocks_succ (M : List MethodInfo) (N a : Nat)
    (hlen : M.length = N) (ha : a + 1 ≤ N) :
    sumTailBlocks M N (a + 1)
      = (M.getD (N - (a + 1)) dfltMI).Num_blocks + sumTailBlocks M N a := by
  have hidx : N - (a + 1) < M.length := by omega
  unfold sumTailBlocks
  rw [List.drop_eq_getElem_cons hidx,
      show N - (a + 1) + 1 = N - a from by omega]
  simp [List.getD_eq_getElem?_getD, List.getElem?_eq_getElem hidx]

theorem evictLoop_spec (M : List MethodInfo) (N tB : Nat)
    (hlen : M.length = N) (htB : tB ≤ N) :
    ∀ active activeBlocks, active ≤ N →
      activeBlocks = sumTailBlocks M N active →
      (evictLoop M N tB active activeBlocks).1 ≤ active ∧
      (evictLoop M N tB active activeBlocks).2
        = sumTailBlocks M N (evictLoop M N tB active activeBlocks).1 ∧
      (evictLoop M N tB active activeBlocks).2 + tB ≤ N := by
  intro active
  induction active with
  | zero =>
    intro ab _ hab
    rw [sumTailBlocks_zero M N hlen] at hab
    simp only [evictLoop]
    exact ⟨le_rfl, by rw [hab, sumTailBlocks_zero M N hlen], by omega⟩
  | succ a ih =>
    intro ab ha hab
    by_cases h : ab + tB > N
    · have hstep := sumTailBlocks_succ M N a hlen ha
      simp only [evictLoop]
      rw [if_pos h]
      have := ih (ab - (M.getD (N - (a + 1)) dfltMI).Num_blocks)
        (by omega) (by rw [hab, hstep]; omega)
      exact ⟨le_trans this.1 (by omega), this.2.1, this.2.2⟩
    · simp only [evictLoop]
      rw [if_neg h]
      exact ⟨le_rfl, hab, by omega⟩

theorem length_le_sum_of_one_le (l : List Nat) (h : ∀ x ∈ l, 1 ≤ x) :
    l.length ≤ l.sum := by
  induction l with
  | nil => simp
  | cons b t ih =>
    have hb := h b (List.mem_cons_self b t)
    have ht := ih (fun x hx => h x (List.mem_cons_of_mem b hx))
    simp only [List.length_cons, List.sum_cons]
    omega

theorem active_le_sumTailBlocks (M : List MethodInfo) (N active : Nat)
    (hlen : M.length = N) (ha : active ≤ N)
    (hone : ∀ e ∈ M.drop (N - active), 1 ≤ e.Num_blocks) :
    active ≤ sumTailBlocks M N active := by
  unfold sumTailBlocks
  have hlen2 : (M.drop (N - active)).length = active := by
    rw [List.length_drop]
    omega
  have hmap : ((M.drop (N - active)).map MethodInfo.Num_blocks).length
      = active := by rw [List.length_map, hlen2]
  have := length_le_sum_of_one_le
    ((M.drop (N - active)).map MethodInfo.Num_blocks)
    (by
      intro x hx
      rcases List.mem_map.mp hx with ⟨e, he, hex⟩
      rw [← hex]
      exact hone e he)
  omega

theorem mem_drop_of_le (M : List MethodInfo) (m n : Nat) (h : n ≤ m) :
    ∀ e ∈ M.drop m, e ∈ M.drop n := by
  intro e he
  have hd : (M.drop n).drop (m - n) = M.drop m := by
    rw [List.drop_drop]
    congr 1
    omega
  rw [← hd] at he
  exact List.drop_subset _ _ he

/-- Claim C5: on a method-cache miss, the `SIZE` phase of `is_available`
reads the 4 bytes at `base - 4` as a big-endian word giving the method size
in bytes, ceiling-divides it by the block size into the block count, raises
`CODE_EXCEEDED` when that count is zero or exceeds the cache's number of
blocks, evicts least-recently-used entries until the active blocks plus the
new method fit within the cache, inserts the new entry at the
most-recently-used position reusing the byte buffer of the slot freed by
the eviction (the last-evicted entry's buffer), and moves to `TRANSFER`;
while the size read is not ready, the state is unchanged.  The hypotheses
are the cache's structural invariants: array length, active-block sum, and
at least one block per active entry. -/
theorem method_cache_size_phase (c : LruMethodCache) (mem : Nat → Nat)
    (address : Nat)
    (hlen : c.Methods.length = c.Num_blocks)
    (hsum : c.Num_active_blocks
      = sumTailBlocks c.Methods c.Num_blocks c.Num_active_methods)
    (hact : c.Num_active_methods ≤ c.Num_blocks)
    (hone : ∀ e ∈ c.Methods.drop (c.Num_blocks - c.Num_active_methods),
      1 ≤ e.Num_blocks) :
    (mcSizeStep c mem false address = .ok c) ∧
    (ceilBlocks (readWordBE mem (address - 4)) c.numBlockBytes = 0 ∨
        ceilBlocks (readWordBE mem (address - 4)) c.numBlockBytes
          > c.Num_blocks →
      mcSizeStep c mem true address = .error (.codeExceeded address)) ∧
    (0 < ceilBlocks (readWordBE mem (address - 4)) c.numBlockBytes →
      ceilBlocks (readWordBE mem (address - 4)) c.numBlockBytes
          ≤ c.Num_blocks →
      mcSizeStep c mem true address = .ok (mcSizeResult c mem address) ∧
      (mcSizeResult c mem address).Phase = .TRANSFER ∧
      (mcSizeResult c mem address).Num_transfer_bytes
        = readWordBE mem (address - 4) ∧
      (mcSizeResult c mem address).Num_transfer_blocks
        = ceilBlocks (readWordBE mem (address - 4)) c.numBlockBytes ∧
      (mcSizeResult c mem address).Num_active_methods ≤ c.Num_blocks ∧
      (mcSizeResult c mem address).Num_active_blocks ≤ c.Num_blocks ∧
      (mcSizeResult c mem address).Methods.length = c.Num_blocks ∧
      (∃ pre, (mcSizeResult c mem address).Methods
        = pre ++
          [⟨(c.Methods.getD
               (c.Num_blocks
                 - (mcSizeResult c mem address).Num_active_methods)
               dfltMI).Instructions,
            address,
            ceilBlocks (readWordBE mem (address - 4)) c.numBlockBytes,
            readWordBE mem (address - 4)⟩])) := by
  refine ⟨by simp [mcSizeStep], ?_, ?_⟩
  · intro h
    simp only [mcSizeStep, if_true]
    rw [if_pos h]
  · intro h0 hN
    have hspec := evictLoop_spec c.Methods c.Num_blocks
      (ceilBlocks (readWordBE mem (address - 4)) c.numBlockBytes) hlen hN
      c.Num_active_methods c.Num_active_blocks hact hsum
    have hev1 : (evictLoop c.Methods c.Num_blocks
        (ceilBlocks (readWordBE mem (address - 4)) c.numBlockBytes)
        c.Num_active_methods c.Num_active_blocks).1
          ≤ c.Num_active_methods := hspec.1
    have hone2 : ∀ e ∈ c.Methods.drop
        (c.Num_blocks - (evictLoop c.Methods c.Num_blocks
          (ceilBlocks (readWordBE mem (address - 4)) c.numBlockBytes)
          c.Num_active_methods c.Num_active_blocks).1),
        1 ≤ e.Num_blocks :=
      fun e he => hone e
        (mem_drop_of_le c.Methods _ _ (by omega) e he)
    have hle2 := active_le_sumTailBlocks c.Methods c.Num_blocks
      (evictLoop c.Methods c.Num_blocks
        (ceilBlocks (readWordBE mem (address - 4)) c.numBlockBytes)
        c.Num_active_methods c.Num_active_blocks).1 hlen (by omega) hone2
    have hsum2 := hspec.2.1
    have hfit := hspec.2.2
    have hact2 : (evictLoop c.Methods c.Num_blocks
        (ceilBlocks (readWordBE mem (address - 4)) c.numBlockBytes)
        c.Num_active_methods c.Num_active_blocks).1 + 1 ≤ c.Num_blocks := by
      omega
    refine ⟨?_, rfl, rfl, rfl, hact2, hfit, ?_, ?_⟩
    · simp only [mcSizeStep, if_true]
      rw [if_neg (by omega)]
    · simp only [mcSizeResult, List.length_append, List.length_take,
                 List.length_drop, List.length_cons, List.length_nil, hlen]
      omega
    · exact ⟨c.Methods.take (c.Num_blocks
          - (mcSizeResult c mem address).Num_active_methods)
          ++ c.Methods.drop (c.Num_blocks
          - (mcSizeResult c mem address).Num_active_methods + 1),
        by simp only [mcSizeResult]⟩

/-- Concrete method cache for the C5 witness: 32-byte blocks, 4 blocks, one
active 4-block method occupying the MRU slot (the state left by
`initialize`). -/
def mcC5 : LruMethodCache :=
  { numBlockBytes := 32, Num_blocks := 4, Phase := .SIZE,
    Num_transfer_blocks := 0, Num_transfer_bytes := 0,
    Methods := [⟨10, 0, 0, 0⟩, ⟨11, 0, 0, 0⟩, ⟨12, 0, 0, 0⟩,
                ⟨13, 64, 4, 128⟩],
    Num_active_methods := 1, Num_active_blocks := 4 }

/-- Memory for the C5 witness: the 4 bytes at `1000 - 4` hold the big-endian
method size 96 (3 blocks of 32 bytes). -/
def memC5 : Nat → Nat := fun a => if a = 999 then 96 else 0

/-- Witness for C5 at the concrete cache `mcC5` and method base 1000. -/
theorem method_cache_size_phase_witness :
    (mcSizeStep mcC5 memC5 false 1000 = .ok mcC5) ∧
    (ceilBlocks (readWordBE memC5 (1000 - 4)) mcC5.numBlockBytes = 0 ∨
        ceilBlocks (readWordBE memC5 (1000 - 4)) mcC5.numBlockBytes
          > mcC5.Num_blocks →
      mcSizeStep mcC5 memC5 true 1000 = .error (.codeExceeded 1000)) ∧
    (0 < ceilBlocks (readWordBE memC5 (1000 - 4)) mcC5.numBlockBytes →
      ceilBlocks (readWordBE memC5 (1000 - 4)) mcC5.numBlockBytes
          ≤ mcC5.Num_blocks →
      mcSizeStep mcC5 memC5 true 1000 = .ok (mcSizeResult mcC5 memC5 1000) ∧
      (mcSizeResult mcC5 memC5 1000).Phase = .TRANSFER ∧
      (mcSizeResult mcC5 memC5 1000).Num_transfer_bytes
        = readWordBE memC5 (1000 - 4) ∧
      (mcSizeResult mcC5 memC5 1000).Num_transfer_blocks
        = ceilBlocks (readWordBE memC5 (1000 - 4)) mcC5.numBlockBytes ∧
      (mcSizeResult mcC5 memC5 1000).Num_active_methods ≤ mcC5.Num_blocks ∧
      (mcSizeResult mcC5 memC5 1000).Num_active_blocks ≤ mcC5.Num_blocks ∧
      (mcSizeResult mcC5 memC5 1000).Methods.length = mcC5.Num_blocks ∧
      (∃ pre, (mcSizeResult mcC5 memC5 1000).Methods
        = pre ++
          [⟨(mcC5.Methods.getD
               (mcC5.Num_blocks
                 - (mcSizeResult mcC5 memC5 1000).Num_active_methods)
               dfltMI).Instructions,
            1000,
            ceilBlocks (readWordBE memC5 (1000 - 4)) mcC5.numBlockBytes,
            readWordBE memC5 (1000 - 4)⟩])) :=
  method_cache_size_phase mcC5 memC5 1000 rfl (by decide) (by decide)
    (by decide)

end Patmos
